import Mathlib

/-!
Shallow embedding of the Cobertura coverage-report parser
(`src/lib.rs`, `src/error.rs`, `src/parser.rs`).

Modelling conventions:
* Rust `f64` attribute values are represented exactly as `Rat`; the numeric
  literal grammar accepted by `str::parse::<f64>` is modelled as plain decimal
  numerals (optional sign, digits, optional fraction part).  No claim depends
  on which particular strings are float-parsable, only on parsing being a
  fixed function of the string.
* `usize` / `u64` are represented as `Nat` (no claim exercises overflow).
* `PathBuf` is represented as `String` (its `FromStr` is infallible).
* XML events arrive already classified (`FilteredEvent`); attribute lists are
  lists of (name, value) pairs.  The `quick_xml` attribute-syntax failure path
  (`FailedToParseAttribute`) belongs to the external tokenizer and is not
  reachable in this embedding.
-/

namespace Cobertura

/-- Digits of a decimal numeral folded to a `Nat` (assumes digit characters). -/
def digitsVal (l : List Char) : Nat :=
  l.foldl (fun a c => a * 10 + (c.toNat - 48)) 0

/-- Digit-string to `Nat`, `none` when empty or holding a non-digit. -/
def digitsToNat (l : List Char) : Option Nat :=
  if l.isEmpty then none
  else if l.all Char.isDigit then some (digitsVal l) else none

/-- Model of `str::parse::<usize>` / `::<u64>`: optional leading plus, digits. -/
def parseNat (s : String) : Option Nat :=
  match s.data with
  | '+' :: rest => digitsToNat rest
  | l => digitsToNat l

/-- Signed decimal value from integer and fraction digit lists. -/
def ratSigned (neg : Bool) (ip fp : List Char) : Rat :=
  let den : Nat := Nat.pow 10 fp.length
  let mag : Rat := mkRat (digitsVal ip * den + digitsVal fp) den
  if neg then -mag else mag

/-- Model of `str::parse::<f64>` restricted to plain decimal numerals,
with the value represented exactly as a rational. -/
def parseF64 (s : String) : Option Rat :=
  let l := s.data
  let (neg, l) :=
    match l with
    | '-' :: rest => (true, rest)
    | '+' :: rest => (false, rest)
    | rest => (false, rest)
  let ip := l.takeWhile Char.isDigit
  let rest := l.dropWhile Char.isDigit
  match rest with
  | [] => if ip.isEmpty then none else some (ratSigned neg ip [])
  | '.' :: fp =>
      if fp.all Char.isDigit && (!ip.isEmpty || !fp.isEmpty) then
        some (ratSigned neg ip fp)
      else none
  | _ => none

/-- Model of `str::parse::<bool>`: exactly the strings true / false. -/
def parseBool (s : String) : Option Bool :=
  if s = "true" then some true
  else if s = "false" then some false
  else none

/- ------------------------------------------------------------------
Data model (`src/lib.rs`).
------------------------------------------------------------------ -/

/-- `Condition` of `lib.rs` (field `r#type` is rendered `type'`). -/
structure Condition where
  number : Nat
  type' : String
  coverage : String
deriving DecidableEq, Repr

def Condition.default : Condition :=
  { number := 0, type' := "", coverage := "" }

/-- `Line` of `lib.rs`. -/
structure Line where
  conditions : List Condition
  number : Nat
  hits : Nat
  branch : Bool
  condition_coverage : Option String
deriving DecidableEq, Repr

def Line.default : Line :=
  { conditions := [], number := 0, hits := 0, branch := false,
    condition_coverage := none }

/-- `Method` of `lib.rs`. -/
structure Method where
  lines : List Line
  name : String
  signature : String
  line_rate : Rat
  branch_rate : Rat
deriving DecidableEq, Repr

def Method.default : Method :=
  { lines := [], name := "", signature := "", line_rate := 0, branch_rate := 0 }

/-- `Class` of `lib.rs` (the name `class` is a Lean keyword, hence `Class`
with the `ParserInner` slot called `class'`). -/
structure Class where
  methods : List Method
  lines : List Line
  name : String
  file_name : String
  line_rate : Rat
  branch_rate : Rat
  complexity : Rat
deriving DecidableEq, Repr

def Class.default : Class :=
  { methods := [], lines := [], name := "", file_name := "", line_rate := 0,
    branch_rate := 0, complexity := 0 }

/-- `Package` of `lib.rs`. -/
structure Package where
  classes : List Class
  name : String
  line_rate : Rat
  branch_rate : Rat
  complexity : Rat
deriving DecidableEq, Repr

def Package.default : Package :=
  { classes := [], name := "", line_rate := 0, branch_rate := 0, complexity := 0 }

/-- `Source` of `lib.rs` (field `_data` rendered `data`). -/
structure Source where
  data : String
deriving DecidableEq, Repr

/-- `Coverage` of `lib.rs`. -/
structure Coverage where
  sources : List Source
  packages : List Package
  line_rate : Rat
  branch_rate : Rat
  lines_covered : Nat
  lines_valid : Nat
  branches_covered : Nat
  branches_valid : Nat
  complexity : Rat
  version : String
  timestamp : Nat
deriving DecidableEq, Repr

def Coverage.default : Coverage :=
  { sources := [], packages := [], line_rate := 0, branch_rate := 0,
    lines_covered := 0, lines_valid := 0, branches_covered := 0,
    branches_valid := 0, complexity := 0, version := "", timestamp := 0 }

/- ------------------------------------------------------------------
Events and errors (`parser.rs` / `error.rs`).
------------------------------------------------------------------ -/

/-- `FilteredEvent` of `parser.rs`: an already-classified XML event.
`attributesOnly` is a self-closing tag. -/
inductive FilteredEvent where
  | start (name : String) (attrs : List (String × String))
  | text (payload : String)
  | end_ (name : String)
  | attributesOnly (name : String) (attrs : List (String × String))
deriving DecidableEq, Repr

/-- `BasicEvent` of `error.rs`. -/
inductive BasicEvent where
  | start (name : String)
  | end_ (name : String)
  | empty (name : String)
  | text
deriving DecidableEq, Repr

/-- `From<&FilteredEvent> for BasicEvent`: note that a self-closing tag is
reported as a `start` event, not as `empty`. -/
def FilteredEvent.basic : FilteredEvent → BasicEvent
  | .start n _ => .start n
  | .text _ => .text
  | .end_ n => .end_ n
  | .attributesOnly n _ => .start n

/-- `ParserError` of `error.rs`. -/
inductive ParserError where
  | expectedStart (got : BasicEvent) (expected : List String)
  | expectedEnd (got : BasicEvent) (expected : List String)
  | expectedStartOrEnd (got : BasicEvent) (expectedStarts expectedEnds : List String)
  | unexpectedValue (value : String)
  | failedToParseAttribute
  | invalidValueForAttribute (name : String)
  | missingRequiredAttribute (name : String)
  | unexpectedEof
deriving DecidableEq, Repr

/-- `ParserError::start`. -/
def ParserError.start (got : BasicEvent) (expected : List String) : ParserError :=
  .expectedStart got expected

/-- `ParserError::end`.  Faithful to the source, which builds `ExpectedStart`
(not `ExpectedEnd`) in this constructor. -/
def ParserError.end_ (got : BasicEvent) (expected : List String) : ParserError :=
  .expectedStart got expected

/-- `ParserError::start_end`. -/
def ParserError.start_end (got : BasicEvent)
    (expectedStarts expectedEnds : List String) : ParserError :=
  .expectedStartOrEnd got expectedStarts expectedEnds

/- ------------------------------------------------------------------
Generic required-attribute extraction (`set_required_attributes!` macro).
The macro is generic over a static list of (name, type) descriptors;
this embedding makes that list a first-class value.
------------------------------------------------------------------ -/

/-- Semantic attribute types appearing in the descriptor lists. -/
inductive Ty where
  | string
  | path
  | f64
  | usize
  | u64
  | bool
deriving DecidableEq, Repr

/-- Universal semantic attribute value. -/
inductive TyVal where
  | str (s : String)
  | rat (q : Rat)
  | nat (n : Nat)
  | bool (b : Bool)
deriving DecidableEq, Repr, Inhabited

/-- `value.parse::<T>()` for each semantic type (String / PathBuf never fail). -/
def Ty.parse : Ty → String → Option TyVal
  | .string, s => some (.str s)
  | .path, s => some (.str s)
  | .f64, s => (parseF64 s).map TyVal.rat
  | .usize, s => (parseNat s).map TyVal.nat
  | .u64, s => (parseNat s).map TyVal.nat
  | .bool, s => (parseBool s).map TyVal.bool

def TyVal.getStr : TyVal → String
  | .str s => s
  | _ => ""

def TyVal.getRat : TyVal → Rat
  | .rat q => q
  | _ => 0

def TyVal.getNat : TyVal → Nat
  | .nat n => n
  | _ => 0

def TyVal.getBool : TyVal → Bool
  | .bool b => b
  | _ => false

/-- One `[b"name", ty, field]` entry of the macro. -/
structure AttrDesc where
  name : String
  ty : Ty
deriving DecidableEq, Repr

/-- One iteration of the macro's attribute loop body: each descriptor whose
name matches the attribute gets its slot set to the parsed value; a parse
failure aborts with `InvalidValueForAttribute`. -/
def processAttr : List AttrDesc → List (Option TyVal) → String × String →
    Except ParserError (List (Option TyVal))
  | [], fields, _ => .ok fields
  | _ :: _, [], _ => .ok []
  | d :: descs, f :: fields, nv => do
    let f' ←
      if nv.1 = d.name then
        match d.ty.parse nv.2 with
        | some v => Except.ok (some v)
        | none => Except.error (ParserError.invalidValueForAttribute d.name)
      else Except.ok f
    let rest ← processAttr descs fields nv
    Except.ok (f' :: rest)

/-- The macro's scan over the whole attribute list, in document order. -/
def scanAttrs (descs : List AttrDesc) :
    List (Option TyVal) → List (String × String) →
    Except ParserError (List (Option TyVal))
  | fields, [] => .ok fields
  | fields, a :: rest => do
    let fields' ← processAttr descs fields a
    scanAttrs descs fields' rest

/-- The macro's trailing per-descriptor check: the first slot still unset, in
descriptor order, aborts with `MissingRequiredAttribute`. -/
def requireAll : List AttrDesc → List (Option TyVal) →
    Except ParserError (List TyVal)
  | [], _ => .ok []
  | _ :: _, [] => .ok []
  | d :: descs, f :: fields =>
    match f with
    | some v => do
      let rest ← requireAll descs fields
      Except.ok (v :: rest)
    | none => .error (.missingRequiredAttribute d.name)

/-- `set_required_attributes!`: scan, then require every descriptor bound.
On success the values are returned in descriptor order. -/
def set_required_attributes (descs : List AttrDesc)
    (attrs : List (String × String)) : Except ParserError (List TyVal) := do
  let fields ← scanAttrs descs (descs.map fun _ => none) attrs
  requireAll descs fields

/- Descriptor lists of the five macro call sites. -/

def coverage_descs : List AttrDesc :=
  [⟨"line-rate", .f64⟩, ⟨"branch-rate", .f64⟩, ⟨"lines-covered", .usize⟩,
   ⟨"lines-valid", .usize⟩, ⟨"branches-covered", .usize⟩,
   ⟨"branches-valid", .usize⟩, ⟨"complexity", .f64⟩, ⟨"version", .string⟩,
   ⟨"timestamp", .u64⟩]

def package_descs : List AttrDesc :=
  [⟨"name", .string⟩, ⟨"line-rate", .f64⟩, ⟨"branch-rate", .f64⟩,
   ⟨"complexity", .f64⟩]

def class_descs : List AttrDesc :=
  [⟨"name", .string⟩, ⟨"filename", .path⟩, ⟨"line-rate", .f64⟩,
   ⟨"branch-rate", .f64⟩, ⟨"complexity", .f64⟩]

def method_descs : List AttrDesc :=
  [⟨"name", .string⟩, ⟨"signature", .string⟩, ⟨"line-rate", .f64⟩,
   ⟨"branch-rate", .f64⟩]

def condition_descs : List AttrDesc :=
  [⟨"type", .string⟩, ⟨"coverage", .string⟩]

/- The macro assigns each bound value to the matching struct field; the
value at index i always matches the type of descriptor i, so the accessor
defaults below are unreachable. -/

/-- `set_required_attributes!` call site in `Parser::parse_coverage`. -/
def bindCoverage (c : Coverage) (attrs : List (String × String)) :
    Except ParserError Coverage := do
  let vs ← set_required_attributes coverage_descs attrs
  Except.ok { c with
    line_rate := (vs.getD 0 default).getRat,
    branch_rate := (vs.getD 1 default).getRat,
    lines_covered := (vs.getD 2 default).getNat,
    lines_valid := (vs.getD 3 default).getNat,
    branches_covered := (vs.getD 4 default).getNat,
    branches_valid := (vs.getD 5 default).getNat,
    complexity := (vs.getD 6 default).getRat,
    version := (vs.getD 7 default).getStr,
    timestamp := (vs.getD 8 default).getNat }

/-- `set_required_attributes!` call site in `ParserInner::in_packages`. -/
def bindPackage (p : Package) (attrs : List (String × String)) :
    Except ParserError Package := do
  let vs ← set_required_attributes package_descs attrs
  Except.ok { p with
    name := (vs.getD 0 default).getStr,
    line_rate := (vs.getD 1 default).getRat,
    branch_rate := (vs.getD 2 default).getRat,
    complexity := (vs.getD 3 default).getRat }

/-- `set_required_attributes!` call site in `ParserInner::in_classes`. -/
def bindClass (c : Class) (attrs : List (String × String)) :
    Except ParserError Class := do
  let vs ← set_required_attributes class_descs attrs
  Except.ok { c with
    name := (vs.getD 0 default).getStr,
    file_name := (vs.getD 1 default).getStr,
    line_rate := (vs.getD 2 default).getRat,
    branch_rate := (vs.getD 3 default).getRat,
    complexity := (vs.getD 4 default).getRat }

/-- `set_required_attributes!` call site in `ParserInner::in_methods`. -/
def bindMethod (m : Method) (attrs : List (String × String)) :
    Except ParserError Method := do
  let vs ← set_required_attributes method_descs attrs
  Except.ok { m with
    name := (vs.getD 0 default).getStr,
    signature := (vs.getD 1 default).getStr,
    line_rate := (vs.getD 2 default).getRat,
    branch_rate := (vs.getD 3 default).getRat }

/-- `set_required_attributes!` call site in `ParserInner::in_line_conditions`. -/
def bindCondition (c : Condition) (attrs : List (String × String)) :
    Except ParserError Condition := do
  let vs ← set_required_attributes condition_descs attrs
  Except.ok { c with
    type' := (vs.getD 0 default).getStr,
    coverage := (vs.getD 1 default).getStr }

/- ------------------------------------------------------------------
State machine (`parser.rs`).
------------------------------------------------------------------ -/

/-- `State` of `parser.rs`. -/
inductive State where
  | ParsingCoverage
  | ParsingSources
  | ParsingSource
  | ParsingPackages
  | ParsingPackage
  | ParsingClasses
  | ParsingClass
  | ParsingClassLines
  | ParsingClassLine
  | ParsingMethods
  | ParsingMethod
  | ParsingMethodLines
  | ParsingMethodLine
  | ParsingMethodLineConditions
  | ParsingClassLineConditions
  | End
deriving DecidableEq, Repr

/-- `ParserInner` of `parser.rs`: the in-progress accumulator with one
in-flight slot per nested entity kind. -/
structure ParserInner where
  coverage : Coverage
  package : Package
  class' : Class
  method : Method
  line : Line
  state : State
deriving DecidableEq, Repr

namespace ParserInner

/-- `ParserInner::in_coverage`. -/
def in_coverage (event : FilteredEvent) : Except ParserError State :=
  match event with
  | .start n _ =>
    if n = "sources" then .ok .ParsingSources
    else if n = "packages" then .ok .ParsingPackages
    else .error (ParserError.start (.start n) ["sources", "packages"])
  | .end_ n =>
    if n = "coverage" then .ok .End
    else .error (ParserError.end_ (.end_ n) ["coverage"])
  | .attributesOnly n _ =>
    if n = "sources" then .ok .ParsingCoverage
    else if n = "packages" then .ok .ParsingCoverage
    else .error (ParserError.start (.start n) ["sources", "packages"])
  | evt =>
    .error (ParserError.start_end evt.basic ["sources", "packages"] ["coverage"])

/-- `ParserInner::in_sources`. -/
def in_sources (event : FilteredEvent) : Except ParserError State :=
  match event with
  | .start n _ =>
    if n = "source" then .ok .ParsingSource
    else .error (ParserError.start (.start n) ["source"])
  | .end_ n =>
    if n = "sources" then .ok .ParsingCoverage
    else .error (ParserError.end_ (.end_ n) ["sources"])
  | evt => .error (ParserError.start_end evt.basic ["source"] ["sources"])

/-- `ParserInner::in_source`. -/
def in_source (coverage : Coverage) (event : FilteredEvent) :
    Except ParserError (Coverage × State) :=
  match event with
  | .text payload =>
    .ok ({ coverage with sources := coverage.sources ++ [{ data := payload }] },
         .ParsingSource)
  | .end_ n =>
    if n = "source" then .ok (coverage, .ParsingSources)
    else .error (ParserError.end_ (.end_ n) ["source"])
  | evt => .error (ParserError.start_end evt.basic ["text"] ["source"])

/-- `ParserInner::in_packages`.  Note there is no arm for a self-closing
(`AttributesOnly`) tag: `<package .../>` is rejected. -/
def in_packages (package : Package) (event : FilteredEvent) :
    Except ParserError (Package × State) :=
  match event with
  | .start n attrs =>
    if n = "package" then do
      let package ← bindPackage package attrs
      Except.ok (package, State.ParsingPackage)
    else .error (ParserError.start (.start n) ["package"])
  | .end_ n =>
    if n = "packages" then .ok (package, .ParsingCoverage)
    else .error (ParserError.end_ (.end_ n) ["packages"])
  | evt => .error (ParserError.start_end evt.basic ["package"] ["packages"])

/-- `ParserInner::in_package`.  On the end tag the in-flight package slot is
taken (reset to default) and pushed onto the document. -/
def in_package (coverage : Coverage) (package : Package)
    (event : FilteredEvent) : Except ParserError (Coverage × Package × State) :=
  match event with
  | .start n _ =>
    if n = "classes" then .ok (coverage, package, .ParsingClasses)
    else .error (ParserError.start (.start n) ["classes"])
  | .end_ n =>
    if n = "package" then
      .ok ({ coverage with packages := coverage.packages ++ [package] },
           Package.default, .ParsingPackages)
    else .error (ParserError.end_ (.end_ n) ["package"])
  | .attributesOnly n _ =>
    if n = "classes" then .ok (coverage, package, .ParsingPackage)
    else .error (ParserError.start (.start n) ["classes"])
  | evt => .error (ParserError.start_end evt.basic ["classes"] ["package"])

/-- `ParserInner::in_classes`. -/
def in_classes (package : Package) (cls : Class) (event : FilteredEvent) :
    Except ParserError (Package × Class × State) :=
  match event with
  | .start n attrs =>
    if n = "class" then do
      let cls ← bindClass cls attrs
      Except.ok (package, cls, State.ParsingClass)
    else .error (ParserError.start (.start n) ["class"])
  | .end_ n =>
    if n = "classes" then
      .ok ({ package with classes := package.classes ++ [cls] },
           Class.default, .ParsingPackage)
    else .error (ParserError.end_ (.end_ n) ["classes"])
  | evt => .error (ParserError.start_end evt.basic ["class"] ["classes"])

/-- `ParserInner::in_class`. -/
def in_class (event : FilteredEvent) : Except ParserError State :=
  match event with
  | .start n _ =>
    if n = "methods" then .ok .ParsingMethods
    else if n = "lines" then .ok .ParsingClassLines
    else .error (ParserError.start (.start n) ["methods", "lines"])
  | .end_ n =>
    if n = "class" then .ok .ParsingClasses
    else .error (ParserError.end_ (.end_ n) ["class"])
  | .attributesOnly n _ =>
    if n = "methods" then .ok .ParsingClass
    else if n = "lines" then .ok .ParsingClass
    else .error (ParserError.start (.start n) ["methods", "lines"])
  | evt => .error (ParserError.start_end evt.basic ["methods", "lines"] ["class"])

/-- `ParserInner::in_methods`. -/
def in_methods (cls : Class) (method : Method) (event : FilteredEvent) :
    Except ParserError (Class × Method × State) :=
  match event with
  | .start n attrs =>
    if n = "method" then do
      let method ← bindMethod method attrs
      Except.ok (cls, method, State.ParsingMethod)
    else .error (ParserError.start (.start n) ["method"])
  | .end_ n =>
    if n = "methods" then
      .ok ({ cls with methods := cls.methods ++ [method] },
           Method.default, .ParsingClass)
    else .error (ParserError.end_ (.end_ n) ["methods"])
  | evt => .error (ParserError.start_end evt.basic ["method"] ["methods"])

/-- `ParserInner::in_method`.  Note there is no `AttributesOnly` arm. -/
def in_method (event : FilteredEvent) : Except ParserError State :=
  match event with
  | .start n _ =>
    if n = "lines" then .ok .ParsingMethodLines
    else .error (ParserError.start (.start n) ["lines"])
  | .end_ n =>
    if n = "method" then .ok .ParsingMethods
    else .error (ParserError.end_ (.end_ n) ["method"])
  | evt => .error (ParserError.start_end evt.basic ["lines"] ["method"])

/-- The attribute loop of the `load_lines` closure, threading the in-flight
line slot (only `branch` is written to it during the scan) and the three
local accumulators. -/
def lineScan : Line → Option Nat → Option Nat → Option String →
    List (String × String) →
    Except ParserError (Line × Option Nat × Option Nat × Option String)
  | line, number, hits, cc, [] => .ok (line, number, hits, cc)
  | line, number, hits, cc, (k, v) :: rest =>
    if k = "number" then
      match parseNat v with
      | some x => lineScan line (some x) hits cc rest
      | none => .error (.invalidValueForAttribute k)
    else if k = "hits" then
      match parseNat v with
      | some x => lineScan line number (some x) cc rest
      | none => .error (.invalidValueForAttribute k)
    else if k = "branch" then
      match parseBool v with
      | some b => lineScan { line with branch := b } number hits cc rest
      | none => .error (.invalidValueForAttribute k)
    else if k = "condition-coverage" then
      lineScan line number hits (some v) rest
    else
      lineScan line number hits cc rest

/-- The `load_lines` closure of `ParserInner::lines`: mutates the in-flight
line slot from a `line` tag's attributes.  `number` and `hits` are required;
`condition_coverage` is overwritten (possibly to `none`); `branch` is only
written when the attribute is present. -/
def load_lines (line : Line) (name : String) (attrs : List (String × String))
    (basic : BasicEvent) : Except ParserError Line :=
  if name ≠ "line" then .error (ParserError.start basic ["line"])
  else do
    let (line, number, hits, cc) ← lineScan line none none none attrs
    let line ←
      match number with
      | some x => Except.ok { line with number := x }
      | none => Except.error (ParserError.missingRequiredAttribute ("number"))
    let line ←
      match hits with
      | some x => Except.ok { line with hits := x }
      | none => Except.error (ParserError.missingRequiredAttribute ("hits"))
    Except.ok { line with condition_coverage := cc }

/-- `ParserInner::lines`: shared transition for both lines containers.
A self-closing `line` pushes at once; the `lines` end tag takes the slot and
pushes it unconditionally. -/
def lines (line : Line) (lns : List Line) (event : FilteredEvent)
    (on_attr_only on_list on_end : State) :
    Except ParserError (Line × List Line × State) :=
  match event with
  | .start n attrs => do
    let line ← load_lines line n attrs event.basic
    Except.ok (line, lns, on_list)
  | .attributesOnly n attrs => do
    let line ← load_lines line n attrs event.basic
    Except.ok (Line.default, lns ++ [line], on_attr_only)
  | .end_ n =>
    if n = "lines" then .ok (Line.default, lns ++ [line], on_end)
    else .error (ParserError.end_ event.basic ["lines"])
  | evt => .error (ParserError.start_end evt.basic ["line"] ["lines"])

/-- `ParserInner::in_method_lines`. -/
def in_method_lines (method : Method) (line : Line) (event : FilteredEvent) :
    Except ParserError (Method × Line × State) := do
  let (line, lns, s) ← lines line method.lines event
    State.ParsingMethodLines State.ParsingMethodLine State.ParsingMethod
  Except.ok ({ method with lines := lns }, line, s)

/-- `ParserInner::in_class_lines`. -/
def in_class_lines (cls : Class) (line : Line) (event : FilteredEvent) :
    Except ParserError (Class × Line × State) := do
  let (line, lns, s) ← lines line cls.lines event
    State.ParsingClassLines State.ParsingClassLine State.ParsingClass
  Except.ok ({ cls with lines := lns }, line, s)

/-- `ParserInner::in_method_line`. -/
def in_method_line (event : FilteredEvent) : Except ParserError State :=
  match event with
  | .start n _ =>
    if n = "conditions" then .ok .ParsingMethodLineConditions
    else .error (ParserError.start (.start n) ["conditions"])
  | .end_ n =>
    if n = "line" then .ok .ParsingMethodLines
    else .error (ParserError.end_ (.end_ n) ["line"])
  | .attributesOnly n _ =>
    if n = "conditions" then .ok .ParsingMethodLine
    else .error (ParserError.start (.start n) ["conditions"])
  | evt => .error (ParserError.start_end evt.basic ["conditions"] ["line"])

/-- `ParserInner::in_class_line`. -/
def in_class_line (event : FilteredEvent) : Except ParserError State :=
  match event with
  | .start n _ =>
    if n = "conditions" then .ok .ParsingClassLineConditions
    else .error (ParserError.start (.start n) ["conditions"])
  | .end_ n =>
    if n = "line" then .ok .ParsingClassLines
    else .error (ParserError.end_ (.end_ n) ["line"])
  | .attributesOnly n _ =>
    if n = "conditions" then .ok .ParsingClassLine
    else .error (ParserError.start (.start n) ["conditions"])
  | evt => .error (ParserError.start_end evt.basic ["conditions"] ["line"])

/-- `ParserInner::in_line_conditions`: a fresh `Condition::default()` is
bound and appended for every self-closing `condition` tag. -/
def in_line_conditions (conditions : List Condition) (event : FilteredEvent)
    (on_attr_only on_end : State) :
    Except ParserError (List Condition × State) :=
  match event with
  | .attributesOnly n attrs =>
    if n = "condition" then do
      let condition ← bindCondition Condition.default attrs
      Except.ok (conditions ++ [condition], on_attr_only)
    else .error (ParserError.start (.start n) ["condition"])
  | .end_ n =>
    if n = "conditions" then .ok (conditions, on_end)
    else .error (ParserError.end_ (.end_ n) ["conditions"])
  | evt => .error (ParserError.start_end evt.basic ["condition"] ["conditions"])

/-- `ParserInner::in_method_line_conditions`. -/
def in_method_line_conditions (line : Line) (event : FilteredEvent) :
    Except ParserError (Line × State) := do
  let (cs, s) ← in_line_conditions line.conditions event
    State.ParsingMethodLineConditions State.ParsingMethodLine
  Except.ok ({ line with conditions := cs }, s)

/-- `ParserInner::in_class_line_conditions`. -/
def in_class_line_conditions (line : Line) (event : FilteredEvent) :
    Except ParserError (Line × State) := do
  let (cs, s) ← in_line_conditions line.conditions event
    State.ParsingClassLineConditions State.ParsingClassLine
  Except.ok ({ line with conditions := cs }, s)

/-- `ParserInner::consume_event`: dispatch on the current state, store the
next state.  The source panics when driven past `State::End`; the facade
never does, so that arm is mapped to an (unreachable) error. -/
def consumeEvent (self : ParserInner) (event : FilteredEvent) :
    Except ParserError ParserInner :=
  match self.state with
  | .ParsingCoverage => do
    let s ← in_coverage event
    Except.ok { self with state := s }
  | .ParsingSources => do
    let s ← in_sources event
    Except.ok { self with state := s }
  | .ParsingSource => do
    let (c, s) ← in_source self.coverage event
    Except.ok { self with coverage := c, state := s }
  | .ParsingPackages => do
    let (p, s) ← in_packages self.package event
    Except.ok { self with package := p, state := s }
  | .ParsingPackage => do
    let (c, p, s) ← in_package self.coverage self.package event
    Except.ok { self with coverage := c, package := p, state := s }
  | .ParsingClasses => do
    let (p, cl, s) ← in_classes self.package self.class' event
    Except.ok { self with package := p, class' := cl, state := s }
  | .ParsingClass => do
    let s ← in_class event
    Except.ok { self with state := s }
  | .ParsingMethods => do
    let (cl, m, s) ← in_methods self.class' self.method event
    Except.ok { self with class' := cl, method := m, state := s }
  | .ParsingMethod => do
    let s ← in_method event
    Except.ok { self with state := s }
  | .ParsingMethodLines => do
    let (m, l, s) ← in_method_lines self.method self.line event
    Except.ok { self with method := m, line := l, state := s }
  | .ParsingMethodLine => do
    let s ← in_method_line event
    Except.ok { self with state := s }
  | .ParsingMethodLineConditions => do
    let (l, s) ← in_method_line_conditions self.line event
    Except.ok { self with line := l, state := s }
  | .ParsingClassLines => do
    let (cl, l, s) ← in_class_lines self.class' self.line event
    Except.ok { self with class' := cl, line := l, state := s }
  | .ParsingClassLine => do
    let s ← in_class_line event
    Except.ok { self with state := s }
  | .ParsingClassLineConditions => do
    let (l, s) ← in_class_line_conditions self.line event
    Except.ok { self with line := l, state := s }
  | .End => .error (.unexpectedValue ("consuming more after end event"))

end ParserInner

/- ------------------------------------------------------------------
Public facade (`Parser`).
------------------------------------------------------------------ -/

/-- `std::task::Poll`. -/
inductive Poll (α : Type) where
  | ready (value : α)
  | pending
deriving DecidableEq, Repr

/-- `Parser` of `parser.rs`: an optional accumulator. -/
structure Parser where
  inner : Option ParserInner
deriving DecidableEq, Repr

namespace Parser

/-- `Parser::new`. -/
def new : Parser := ⟨none⟩

/-- `Parser::reset`. -/
def reset (_self : Parser) : Parser := ⟨none⟩

/-- `Parser::parse_coverage`: only a `coverage` start tag with valid root
attributes creates the accumulator. -/
def parse_coverage (event : FilteredEvent) : Except ParserError ParserInner :=
  match event with
  | .start n attrs =>
    if n = "coverage" then do
      let coverage ← bindCoverage Coverage.default attrs
      Except.ok { coverage := coverage, state := State.ParsingCoverage,
                  package := Package.default, class' := Class.default,
                  method := Method.default, line := Line.default }
    else .error (ParserError.start (FilteredEvent.basic event) ["coverage"])
  | evt => .error (ParserError.start (FilteredEvent.basic evt) ["coverage"])

/-- `Parser::consume_event`.  A `Ready` outcome (document or error) clears
the accumulator; on completion the finished document is taken out of it. -/
def consumeEvent (self : Parser) (event : FilteredEvent) :
    Parser × Poll (Except ParserError Coverage) :=
  match self.inner with
  | some inner =>
    match inner.consumeEvent event with
    | .error e => (⟨none⟩, .ready (.error e))
    | .ok inner' =>
      if inner'.state = State.End then (⟨none⟩, .ready (.ok inner'.coverage))
      else (⟨some inner'⟩, .pending)
  | none =>
    match parse_coverage event with
    | .error e => (⟨none⟩, .ready (.error e))
    | .ok inner => (⟨some inner⟩, .pending)

/-- `Parser::parse`: drive `consume_event` over the event stream; an
exhausted stream (the tokenizer's `Eof`) yields `UnexpectedEof` without
touching the accumulator. -/
def parse : Parser → List FilteredEvent → Parser × Except ParserError Coverage
  | self, [] => (self, .error .unexpectedEof)
  | self, event :: rest =>
    match self.consumeEvent event with
    | (self', .ready result) => (self', result)
    | (self', .pending) => parse self' rest

end Parser

/- ------------------------------------------------------------------
Proof-support definitions.
------------------------------------------------------------------ -/

instance {ε α : Type} [DecidableEq ε] [DecidableEq α] : DecidableEq (Except ε α) :=
  fun x y =>
    match x, y with
    | .ok v, .ok w => if h : v = w then isTrue (by rw [h]) else isFalse (by simp [h])
    | .error v, .error w => if h : v = w then isTrue (by rw [h]) else isFalse (by simp [h])
    | .ok _, .error _ => isFalse (by simp)
    | .error _, .ok _ => isFalse (by simp)

/-- Error-free version of one scan step over one descriptor slot. -/
def applyOne (d : AttrDesc) (f : Option TyVal) (nv : String × String) : Option TyVal :=
  if nv.1 = d.name then
    match d.ty.parse nv.2 with
    | some v => some v
    | none => f
  else f

/-- Error-free version of `processAttr`: sets every matching slot, keeps the
old slot when parsing fails. -/
def applyAttr : List AttrDesc → List (Option TyVal) → String × String →
    List (Option TyVal)
  | [], fields, _ => fields
  | _ :: _, [], _ => []
  | d :: descs, f :: fields, nv => applyOne d f nv :: applyAttr descs fields nv

/-- The attribute's value parses for every descriptor its name matches. -/
def GoodAttr (descs : List AttrDesc) (nv : String × String) : Prop :=
  ∀ d ∈ descs, nv.1 = d.name → (d.ty.parse nv.2).isSome

/-- Every present attribute is well-formed with respect to the descriptors. -/
def GoodAttrs (descs : List AttrDesc) (attrs : List (String × String)) : Prop :=
  ∀ nv ∈ attrs, GoodAttr descs nv

instance {descs : List AttrDesc} {nv : String × String} :
    Decidable (GoodAttr descs nv) :=
  inferInstanceAs (Decidable (∀ d ∈ descs, nv.1 = d.name → (d.ty.parse nv.2).isSome))

instance {descs : List AttrDesc} {attrs : List (String × String)} :
    Decidable (GoodAttrs descs attrs) :=
  inferInstanceAs (Decidable (∀ nv ∈ attrs, GoodAttr descs nv))

/-- Drive the facade through a list of events, requiring every single event
to leave it suspended (`Pending`); `none` when some event completes or
fails instead. -/
def Parser.runPending : Parser → List FilteredEvent → Option Parser
  | p, [] => some p
  | p, e :: rest =>
    match p.consumeEvent e with
    | (p', .pending) => Parser.runPending p' rest
    | _ => none

/-- Projection used to state line-level facts about a whole document. -/
def docLines (c : Coverage) : List (List (List Line)) :=
  c.packages.map fun p => p.classes.map fun cl => cl.lines

/- Element kinds that bind required attributes, for the missing-attribute
claim.  `recognized` lists every attribute name the element's extractor
reads (with its type); `required` lists the names whose absence aborts. -/

inductive ElemKind where
  | coverage
  | package
  | class'
  | method
  | line
  | condition
deriving DecidableEq, Repr

def ElemKind.recognized : ElemKind → List AttrDesc
  | .coverage => coverage_descs
  | .package => package_descs
  | .class' => class_descs
  | .method => method_descs
  | .condition => condition_descs
  | .line => [⟨"number", .usize⟩, ⟨"hits", .usize⟩, ⟨"branch", .bool⟩,
              ⟨"condition-coverage", .string⟩]

def ElemKind.required : ElemKind → List String
  | .line => ["number", "hits"]
  | .coverage => coverage_descs.map AttrDesc.name
  | .package => package_descs.map AttrDesc.name
  | .class' => class_descs.map AttrDesc.name
  | .method => method_descs.map AttrDesc.name
  | .condition => condition_descs.map AttrDesc.name

/-- The event forms that make the machine bind the given element kind's
attributes. -/
def ElemKind.events : ElemKind → List (String × String) → List FilteredEvent
  | .coverage, attrs => [.start ("coverage") attrs]
  | .package, attrs => [.start ("package") attrs]
  | .class', attrs => [.start ("class") attrs]
  | .method, attrs => [.start ("method") attrs]
  | .condition, attrs => [.attributesOnly ("condition") attrs]
  | .line, attrs => [.start ("line") attrs, .attributesOnly ("line") attrs]

/-- The facade states in which the given element kind's tag is the one being
bound. -/
def ElemKind.stateOk : ElemKind → Parser → Prop
  | .coverage, p => p.inner = none
  | .package, p => ∃ i, p.inner = some i ∧ i.state = State.ParsingPackages
  | .class', p => ∃ i, p.inner = some i ∧ i.state = State.ParsingClasses
  | .method, p => ∃ i, p.inner = some i ∧ i.state = State.ParsingMethods
  | .condition, p => ∃ i, p.inner = some i ∧
      (i.state = State.ParsingMethodLineConditions ∨
       i.state = State.ParsingClassLineConditions)
  | .line, p => ∃ i, p.inner = some i ∧
      (i.state = State.ParsingMethodLines ∨ i.state = State.ParsingClassLines)

/- Invariant predicates for the condition-number claim. -/

def Line.condZero (l : Line) : Prop := ∀ c ∈ l.conditions, c.number = 0

def Method.condZero (m : Method) : Prop := ∀ l ∈ m.lines, l.condZero

def Class.condZero (c : Class) : Prop :=
  (∀ l ∈ c.lines, l.condZero) ∧ (∀ m ∈ c.methods, m.condZero)

def Package.condZero (p : Package) : Prop := ∀ c ∈ p.classes, c.condZero

def Coverage.condZero (c : Coverage) : Prop := ∀ p ∈ c.packages, p.condZero

def ParserInner.condZero (i : ParserInner) : Prop :=
  i.coverage.condZero ∧ i.package.condZero ∧ i.class'.condZero ∧
  i.method.condZero ∧ i.line.condZero

def Parser.condZero (p : Parser) : Prop :=
  ∀ i, p.inner = some i → i.condZero

/- ------------------------------------------------------------------
Concrete inputs used by witnesses and counterexamples.
------------------------------------------------------------------ -/

/-- Valid root attributes with all nine required names. -/
def a9 : List (String × String) :=
  [("line-rate", "0"), ("branch-rate", "0"), ("lines-covered", "0"),
   ("lines-valid", "0"), ("branches-covered", "0"), ("branches-valid", "0"),
   ("complexity", "0"), ("version", "1"), ("timestamp", "0")]

/-- Package attributes from the four given value strings. -/
def package_attrs (sn slr sbr scx : String) : List (String × String) :=
  [("name", sn), ("line-rate", slr), ("branch-rate", sbr), ("complexity", scx)]

/-- Coverage attributes from the nine given value strings. -/
def coverage_attrs (slr sbr slc slv sbc sbv scx sv st : String) :
    List (String × String) :=
  [("line-rate", slr), ("branch-rate", sbr), ("lines-covered", slc),
   ("lines-valid", slv), ("branches-covered", sbc), ("branches-valid", sbv),
   ("complexity", scx), ("version", sv), ("timestamp", st)]

def ap : List (String × String) := package_attrs "p" "0" "0" "0"

def ac : List (String × String) :=
  [("name", "c"), ("filename", "f"), ("line-rate", "0"), ("branch-rate", "0"),
   ("complexity", "0")]

/-- Document whose single class has a lines container holding exactly one
(self-closing) line element. -/
def c1events : List FilteredEvent :=
  [.start ("coverage") a9, .start ("packages") [], .start ("package") ap,
   .start ("classes") [], .start ("class") ac, .start ("lines") [],
   .attributesOnly ("line") [("number", "1"), ("hits", "3")],
   .end_ ("lines"), .end_ ("class"), .end_ ("classes"), .end_ ("package"),
   .end_ ("packages"), .end_ ("coverage")]

/-- Truncated stream: a valid root start tag and nothing else. -/
def c2events : List FilteredEvent := [.start ("coverage") a9]

/-- Document whose package is written in the expanded form
package-start / self-closed classes / package-end. -/
def c3expanded (sn slr sbr scx : String) : List FilteredEvent :=
  [.start ("coverage") a9, .start ("packages") [],
   .start ("package") (package_attrs sn slr sbr scx),
   .attributesOnly ("classes") [], .end_ ("package"), .end_ ("packages"),
   .end_ ("coverage")]

/-- The same document with the package written as a self-closing tag. -/
def c3selfClosed (sn slr sbr scx : String) : List FilteredEvent :=
  [.start ("coverage") a9, .start ("packages") [],
   .attributesOnly ("package") (package_attrs sn slr sbr scx),
   .end_ ("packages"), .end_ ("coverage")]

/-- Document whose class's lines container holds an open line element with
a branch attribute followed by a self-closing line element without one. -/
def c4events : List FilteredEvent :=
  [.start ("coverage") a9, .start ("packages") [], .start ("package") ap,
   .start ("classes") [], .start ("class") ac, .start ("lines") [],
   .start ("line") [("number", "1"), ("hits", "1"), ("branch", "true")],
   .end_ ("line"),
   .attributesOnly ("line") [("number", "2"), ("hits", "0")],
   .end_ ("lines"), .end_ ("class"), .end_ ("classes"), .end_ ("package"),
   .end_ ("packages"), .end_ ("coverage")]

/- Attribute lists for the scan-order counterexample: a duplicated name with
two different parsable values, and two distinct names with unparsable
values. -/

def c5dupA : List (String × String) :=
  [("name", "a"), ("line-rate", "1"), ("line-rate", "2"), ("branch-rate", "0"),
   ("complexity", "0")]

def c5dupB : List (String × String) :=
  [("name", "a"), ("line-rate", "2"), ("line-rate", "1"), ("branch-rate", "0"),
   ("complexity", "0")]

def c5invA : List (String × String) :=
  [("name", "a"), ("line-rate", "x"), ("branch-rate", "y"), ("complexity", "0")]

def c5invB : List (String × String) :=
  [("name", "a"), ("branch-rate", "y"), ("line-rate", "x"), ("complexity", "0")]

/-- Class attributes with the required branch-rate absent and every present
attribute well-formed. -/
def c6attrs : List (String × String) :=
  [("name", "c"), ("filename", "f"), ("line-rate", "0"), ("complexity", "0")]

/-- Prefix driving a fresh facade into the `ParsingClasses` state. -/
def c6lead : List FilteredEvent :=
  [.start ("coverage") a9, .start ("packages") [], .start ("package") ap,
   .start ("classes") []]

/-- The facade state reached by `c6lead` (computed, for the witness). -/
def c6parser : Parser := (Parser.new.runPending c6lead).getD Parser.new

def emptyInner : ParserInner :=
  { coverage := Coverage.default, package := Package.default,
    class' := Class.default, method := Method.default, line := Line.default,
    state := State.ParsingCoverage }

/-- The accumulator inside `c6parser` (for the witness's `stateOk` proof). -/
def c6inner : ParserInner := c6parser.inner.getD emptyInner

/-- Pending prefix for the truncation witness. -/
def c7lead : List FilteredEvent :=
  [.start ("coverage") a9, .start ("packages") []]

def c7parser : Parser := (Parser.new.runPending c7lead).getD Parser.new

/-- Minimal well-formed document from nine root attribute value strings. -/
def c8events (slr sbr slc slv sbc sbv scx sv st : String) :
    List FilteredEvent :=
  [.start ("coverage") (coverage_attrs slr sbr slc slv sbc sbv scx sv st),
   .attributesOnly ("packages") [], .end_ ("coverage")]

/-- An accumulator one end tag away from completion. -/
def c9inner : ParserInner :=
  { coverage := Coverage.default, package := Package.default,
    class' := Class.default, method := Method.default, line := Line.default,
    state := State.ParsingCoverage }

/-- The coverage value bound from the root attributes `a9`. -/
def cov0 : Coverage :=
  { sources := [], packages := [], line_rate := 0, branch_rate := 0,
    lines_covered := 0, lines_valid := 0, branches_covered := 0,
    branches_valid := 0, complexity := 0, version := "1", timestamp := 0 }

/-- Document containing one line with one condition. -/
def c10events : List FilteredEvent :=
  [.start ("coverage") a9, .start ("packages") [], .start ("package") ap,
   .start ("classes") [], .start ("class") ac, .start ("lines") [],
   .start ("line") [("number", "2"), ("hits", "0")],
   .start ("conditions") [],
   .attributesOnly ("condition") [("type", "jump"), ("coverage", "50%")],
   .end_ ("conditions"), .end_ ("line"), .end_ ("lines"), .end_ ("class"),
   .end_ ("classes"), .end_ ("package"), .end_ ("packages"),
   .end_ ("coverage")]

def c10doc : Coverage :=
  ((Parser.new.parse c10events).2).toOption.getD Coverage.default

def c10pkg : Package := c10doc.packages.headD Package.default

def c10cl : Class := c10pkg.classes.headD Class.default

def c10line : Line := c10cl.lines.headD Line.default

def c10cond : Condition := c10line.conditions.headD Condition.default

/- ------------------------------------------------------------------
Helper lemmas.
------------------------------------------------------------------ -/

theorem parse_cons_pending (p p' : Parser) (e : FilteredEvent)
    (rest : List FilteredEvent) (h : p.consumeEvent e = (p', Poll.pending)) :
    p.parse (e :: rest) = p'.parse rest := by
  rw [Parser.parse, h]

theorem parse_cons_ready (p p' : Parser) (e : FilteredEvent)
    (r : Except ParserError Coverage) (rest : List FilteredEvent)
    (h : p.consumeEvent e = (p', Poll.ready r)) :
    p.parse (e :: rest) = (p', r) := by
  rw [Parser.parse, h]

/-- Symbolic evaluation of the package-attribute binding. -/
theorem bindPackage_eval (p : Package) (sn slr sbr scx : String)
    (lr br cx : Rat) (hlr : parseF64 slr = some lr)
    (hbr : parseF64 sbr = some br) (hcx : parseF64 scx = some cx) :
    bindPackage p (package_attrs sn slr sbr scx) =
      Except.ok { p with name := sn, line_rate := lr, branch_rate := br,
                         complexity := cx } := by
  simp [bindPackage, package_attrs, package_descs, set_required_attributes,
        scanAttrs, processAttr, requireAll, Ty.parse, hlr, hbr, hcx,
        bind, Except.bind, pure, Except.pure, TyVal.getStr, TyVal.getRat]

/-- Symbolic evaluation of the root-attribute binding. -/
theorem bindCoverage_eval (c : Coverage)
    (slr sbr slc slv sbc sbv scx sv st : String)
    (lr br cx : Rat) (lc lv bc bv ts : Nat)
    (hlr : parseF64 slr = some lr) (hbr : parseF64 sbr = some br)
    (hlc : parseNat slc = some lc) (hlv : parseNat slv = some lv)
    (hbc : parseNat sbc = some bc) (hbv : parseNat sbv = some bv)
    (hcx : parseF64 scx = some cx) (hts : parseNat st = some ts) :
    bindCoverage c (coverage_attrs slr sbr slc slv sbc sbv scx sv st) =
      Except.ok { c with line_rate := lr, branch_rate := br,
                         lines_covered := lc, lines_valid := lv,
                         branches_covered := bc, branches_valid := bv,
                         complexity := cx, version := sv, timestamp := ts } := by
  simp [bindCoverage, coverage_attrs, coverage_descs, set_required_attributes,
        scanAttrs, processAttr, requireAll, Ty.parse, hlr, hbr, hlc, hlv, hbc,
        hbv, hcx, hts, bind, Except.bind, pure, Except.pure, TyVal.getStr,
        TyVal.getRat, TyVal.getNat]

/-- Under well-formed values, one scan step never errors and acts as the
pure update `applyAttr`. -/
theorem processAttr_ok (descs : List AttrDesc) (nv : String × String)
    (h : GoodAttr descs nv) :
    ∀ fields, processAttr descs fields nv = .ok (applyAttr descs fields nv) := by
  induction descs with
  | nil => intro fields; rfl
  | cons d ds ih =>
    intro fields
    cases fields with
    | nil => rfl
    | cons f fs =>
      have ht : GoodAttr ds nv := fun d' hd' => h d' (by simp [hd'])
      by_cases hname : nv.1 = d.name
      · obtain ⟨v, hv⟩ := Option.isSome_iff_exists.mp (h d (by simp) hname)
        simp [processAttr, applyAttr, applyOne, hname, hv, ih ht fs, bind,
              Except.bind]
      · simp [processAttr, applyAttr, applyOne, hname, ih ht fs, bind,
              Except.bind]

/-- Under well-formed values the whole scan never errors and is the fold of
the pure update. -/
theorem scanAttrs_ok (descs : List AttrDesc) (attrs : List (String × String))
    (h : GoodAttrs descs attrs) :
    ∀ fields, scanAttrs descs fields attrs =
      .ok (attrs.foldl (applyAttr descs) fields) := by
  induction attrs with
  | nil => intro fields; rfl
  | cons a rest ih =>
    intro fields
    have ha : GoodAttr descs a := h a (by simp)
    have ht : GoodAttrs descs rest := fun nv hnv => h nv (by simp [hnv])
    simp [scanAttrs, processAttr_ok descs a ha, ih ht, List.foldl, bind,
          Except.bind]

/-- Updates for two attributes with different names commute. -/
theorem applyAttr_comm (descs : List AttrDesc) (a b : String × String)
    (hab : a.1 ≠ b.1) :
    ∀ fields, applyAttr descs (applyAttr descs fields a) b =
      applyAttr descs (applyAttr descs fields b) a := by
  induction descs with
  | nil => intro fields; rfl
  | cons d ds ih =>
    intro fields
    cases fields with
    | nil => rfl
    | cons f fs =>
      have hone : applyOne d (applyOne d f a) b = applyOne d (applyOne d f b) a := by
        by_cases haa : a.1 = d.name
        · have hbb : ¬b.1 = d.name := fun hb => hab (haa.trans hb.symm)
          simp [applyOne, haa, hbb]
        · by_cases hbb : b.1 = d.name
          · simp [applyOne, haa, hbb]
          · simp [applyOne, haa, hbb]
      simp [applyAttr, hone, ih]

/-- The pure update fold is invariant under permutations of a
duplicate-free attribute list. -/
theorem foldl_applyAttr_perm (descs : List AttrDesc)
    {l₁ l₂ : List (String × String)} (p : l₁.Perm l₂) :
    (l₁.map Prod.fst).Nodup →
      ∀ init, l₁.foldl (applyAttr descs) init = l₂.foldl (applyAttr descs) init := by
  induction p with
  | nil => intro _ init; rfl
  | cons x p ih =>
    intro h init
    rw [List.map_cons, List.nodup_cons] at h
    simpa [List.foldl] using ih h.2 (applyAttr descs init x)
  | swap x y l =>
    intro h init
    rw [List.map_cons, List.map_cons, List.nodup_cons] at h
    have hxy : y.1 ≠ x.1 := fun he => h.1 (by simp [he])
    simp [List.foldl, applyAttr_comm descs y x hxy]
  | trans p₁ p₂ ih₁ ih₂ =>
    intro h init
    rw [ih₁ h init, ih₂ ((p₁.map Prod.fst).nodup_iff.mp h) init]

/-- The scan fold decomposes pointwise over the descriptor list. -/
theorem foldl_applyAttr_cons (d : AttrDesc) (descs : List AttrDesc)
    (attrs : List (String × String)) :
    ∀ (f : Option TyVal) (fields : List (Option TyVal)),
      attrs.foldl (applyAttr (d :: descs)) (f :: fields) =
        (attrs.foldl (applyOne d) f) ::
          (attrs.foldl (applyAttr descs) fields) := by
  induction attrs with
  | nil => intro f fields; rfl
  | cons a rest ih =>
    intro f fields
    simpa [List.foldl, applyAttr] using ih (applyOne d f a) (applyAttr descs fields a)

/-- A single descriptor's slot stays unset over the scan exactly when it
started unset and no attribute carries its name (given that every value for
its name parses). -/
theorem foldl_applyOne_none (d : AttrDesc) (attrs : List (String × String))
    (h : ∀ nv ∈ attrs, nv.1 = d.name → (d.ty.parse nv.2).isSome) :
    ∀ f, (attrs.foldl (applyOne d) f = none ↔
      f = none ∧ d.name ∉ attrs.map Prod.fst) := by
  induction attrs with
  | nil => intro f; simp
  | cons a rest ih =>
    intro f
    have ht : ∀ nv ∈ rest, nv.1 = d.name → (d.ty.parse nv.2).isSome :=
      fun nv hnv => h nv (by simp [hnv])
    by_cases ha : a.1 = d.name
    · obtain ⟨v, hv⟩ := Option.isSome_iff_exists.mp (h a (by simp) ha)
      rw [List.foldl_cons, show applyOne d f a = some v by simp [applyOne, ha, hv],
          ih ht (some v), List.map_cons]
      apply iff_of_false
      · rintro ⟨hc, -⟩
        exact Option.some_ne_none v hc
      · rintro ⟨-, h2⟩
        exact h2 (List.mem_cons.mpr (Or.inl ha.symm))
    · have hne : ¬(d.name = a.1) := fun he => ha he.symm
      rw [List.foldl_cons, show applyOne d f a = f by simp [applyOne, ha],
          ih ht f, List.map_cons]
      simp only [List.mem_cons, not_or]
      constructor
      · rintro ⟨h1, h2⟩
        exact ⟨h1, hne, h2⟩
      · rintro ⟨h1, -, h2⟩
        exact ⟨h1, h2⟩

/-- When exactly the required name `m` is absent from a well-formed
attribute list, the trailing check reports `MissingRequiredAttribute m`. -/
theorem requireAll_foldl_missing (attrs : List (String × String)) (m : String)
    (habs : m ∉ attrs.map Prod.fst) :
    ∀ descs : List AttrDesc, GoodAttrs descs attrs →
      m ∈ descs.map AttrDesc.name →
      (∀ d ∈ descs, d.name = m ∨ d.name ∈ attrs.map Prod.fst) →
      requireAll descs (attrs.foldl (applyAttr descs)
          (descs.map fun _ => none)) =
        .error (.missingRequiredAttribute m) := by
  intro descs
  induction descs with
  | nil => intro _ hin _; simp at hin
  | cons d ds ih =>
    intro hgood hin hoth
    have hgoodd : ∀ nv ∈ attrs, nv.1 = d.name → (d.ty.parse nv.2).isSome :=
      fun nv hnv he => hgood nv hnv d (by simp) he
    have hgoodt : GoodAttrs ds attrs :=
      fun nv hnv d' hd' => hgood nv hnv d' (by simp [hd'])
    rw [List.map_cons, foldl_applyAttr_cons]
    rcases hoth d (by simp) with hd | hd
    · have hX : attrs.foldl (applyOne d) none = none :=
        (foldl_applyOne_none d attrs hgoodd none).mpr ⟨rfl, hd ▸ habs⟩
      simp [requireAll, hX, hd]
    · have hXne : attrs.foldl (applyOne d) none ≠ none := fun hX =>
        ((foldl_applyOne_none d attrs hgoodd none).mp hX).2 hd
      obtain ⟨v, hv⟩ := Option.ne_none_iff_exists'.mp hXne
      have hdm : ¬d.name = m := fun he => habs (he ▸ hd)
      have hin' : m ∈ ds.map AttrDesc.name := by
        rw [List.map_cons] at hin
        rcases List.mem_cons.mp hin with he | he
        · exact absurd he.symm hdm
        · exact he
      have hoth' : ∀ d' ∈ ds, d'.name = m ∨ d'.name ∈ attrs.map Prod.fst :=
        fun d' hd' => hoth d' (by simp [hd'])
      have ih' := ih hgoodt hin' hoth'
      simp only [List.map_const'] at ih'
      simp [requireAll, hv, ih', bind, Except.bind]

/-- `set_required_attributes` on a well-formed list missing exactly the
required name `m` fails with `MissingRequiredAttribute m`. -/
theorem extract_missing (descs : List AttrDesc)
    (attrs : List (String × String)) (m : String)
    (hgood : GoodAttrs descs attrs) (habs : m ∉ attrs.map Prod.fst)
    (hin : m ∈ descs.map AttrDesc.name)
    (hoth : ∀ d ∈ descs, d.name = m ∨ d.name ∈ attrs.map Prod.fst) :
    set_required_attributes descs attrs =
      .error (.missingRequiredAttribute m) := by
  unfold set_required_attributes
  rw [scanAttrs_ok descs attrs hgood]
  simpa [bind, Except.bind] using
    requireAll_foldl_missing attrs m habs descs hgood hin hoth

/-- The line-attribute scan never errors on well-formed values, and its
`number` / `hits` accumulators are unset exactly when they started unset and
the attribute is absent. -/
theorem lineScan_ok (attrs : List (String × String))
    (hgood : ∀ nv ∈ attrs,
      (nv.1 = "number" → (parseNat nv.2).isSome) ∧
      (nv.1 = "hits" → (parseNat nv.2).isSome) ∧
      (nv.1 = "branch" → (parseBool nv.2).isSome)) :
    ∀ line n h cc, ∃ line' n' h' cc',
      ParserInner.lineScan line n h cc attrs = .ok (line', n', h', cc') ∧
      (n' = none ↔ n = none ∧ ("number" : String) ∉ attrs.map Prod.fst) ∧
      (h' = none ↔ h = none ∧ ("hits" : String) ∉ attrs.map Prod.fst) := by
  induction attrs with
  | nil =>
    intro line n h cc
    exact ⟨line, n, h, cc, rfl, by simp, by simp⟩
  | cons a rest ih =>
    obtain ⟨k, v⟩ := a
    intro line n h cc
    have hk := hgood (k, v) (by simp)
    have ht : ∀ nv ∈ rest,
        (nv.1 = "number" → (parseNat nv.2).isSome) ∧
        (nv.1 = "hits" → (parseNat nv.2).isSome) ∧
        (nv.1 = "branch" → (parseBool nv.2).isSome) :=
      fun nv hnv => hgood nv (by simp [hnv])
    by_cases h1 : k = "number"
    · obtain ⟨x, hx⟩ := Option.isSome_iff_exists.mp (hk.1 h1)
      obtain ⟨l', n', h', cc', hls, hn, hh⟩ := ih ht line (some x) h cc
      refine ⟨l', n', h', cc', by simp [ParserInner.lineScan, h1, hx, hls], ?_, ?_⟩
      · rw [hn, List.map_cons]
        apply iff_of_false
        · rintro ⟨hc, -⟩
          exact Option.some_ne_none x hc
        · rintro ⟨-, h2⟩
          exact h2 (List.mem_cons.mpr (Or.inl h1.symm))
      · rw [hh, List.map_cons]
        simp only [List.mem_cons, not_or]
        have hne : ¬("hits" : String) = k := fun he => by
          rw [h1] at he
          exact absurd he (by decide)
        constructor
        · rintro ⟨u1, u2⟩
          exact ⟨u1, hne, u2⟩
        · rintro ⟨u1, -, u2⟩
          exact ⟨u1, u2⟩
    · by_cases h2 : k = "hits"
      · obtain ⟨x, hx⟩ := Option.isSome_iff_exists.mp (hk.2.1 h2)
        obtain ⟨l', n', h', cc', hls, hn, hh⟩ := ih ht line n (some x) cc
        refine ⟨l', n', h', cc',
          by simp [ParserInner.lineScan, h1, h2, hx, hls], ?_, ?_⟩
        · rw [hn, List.map_cons]
          simp only [List.mem_cons, not_or]
          have hne : ¬("number" : String) = k := fun he => h1 he.symm
          constructor
          · rintro ⟨u1, u2⟩
            exact ⟨u1, hne, u2⟩
          · rintro ⟨u1, -, u2⟩
            exact ⟨u1, u2⟩
        · rw [hh, List.map_cons]
          apply iff_of_false
          · rintro ⟨hc, -⟩
            exact Option.some_ne_none x hc
          · rintro ⟨-, hmem⟩
            exact hmem (List.mem_cons.mpr (Or.inl h2.symm))
      · have transfer : ∀ (key : String), ¬key = k →
            ∀ (o : Option Nat) (ks : List String),
            (o = none ∧ key ∉ ks) ↔ (o = none ∧ key ∉ k :: ks) := by
          intro key hne o ks
          simp only [List.mem_cons, not_or]
          constructor
          · rintro ⟨u1, u2⟩
            exact ⟨u1, hne, u2⟩
          · rintro ⟨u1, -, u2⟩
            exact ⟨u1, u2⟩
        have hnum : ¬("number" : String) = k := fun he => h1 he.symm
        have hhits : ¬("hits" : String) = k := fun he => h2 he.symm
        by_cases h3 : k = "branch"
        · obtain ⟨b, hb⟩ := Option.isSome_iff_exists.mp (hk.2.2 h3)
          obtain ⟨l', n', h', cc', hls, hn, hh⟩ :=
            ih ht { line with branch := b } n h cc
          refine ⟨l', n', h', cc',
            by simp [ParserInner.lineScan, h1, h2, h3, hb, hls], ?_, ?_⟩
          · rw [hn, List.map_cons]
            exact transfer _ hnum n _
          · rw [hh, List.map_cons]
            exact transfer _ hhits h _
        · by_cases h4 : k = "condition-coverage"
          · obtain ⟨l', n', h', cc', hls, hn, hh⟩ := ih ht line n h (some v)
            refine ⟨l', n', h', cc',
              by simp [ParserInner.lineScan, h1, h2, h3, h4, hls], ?_, ?_⟩
            · rw [hn, List.map_cons]
              exact transfer _ hnum n _
            · rw [hh, List.map_cons]
              exact transfer _ hhits h _
          · obtain ⟨l', n', h', cc', hls, hn, hh⟩ := ih ht line n h cc
            refine ⟨l', n', h', cc',
              by simp [ParserInner.lineScan, h1, h2, h3, h4, hls], ?_, ?_⟩
            · rw [hn, List.map_cons]
              exact transfer _ hnum n _
            · rw [hh, List.map_cons]
              exact transfer _ hhits h _

/-- `load_lines` on a well-formed attribute list missing exactly the
required name `m` (number or hits) fails with
`MissingRequiredAttribute m`. -/
theorem load_lines_missing (line : Line) (attrs : List (String × String))
    (basicv : BasicEvent) (m : String)
    (hgood : ∀ nv ∈ attrs,
      (nv.1 = "number" → (parseNat nv.2).isSome) ∧
      (nv.1 = "hits" → (parseNat nv.2).isSome) ∧
      (nv.1 = "branch" → (parseBool nv.2).isSome))
    (hm : m = "number" ∨ m = "hits") (habs : m ∉ attrs.map Prod.fst)
    (hoth : ∀ r ∈ (["number", "hits"] : List String),
      r = m ∨ r ∈ attrs.map Prod.fst) :
    ParserInner.load_lines line ("line") attrs basicv =
      .error (.missingRequiredAttribute m) := by
  obtain ⟨l', n', h', cc', hls, hn, hh⟩ := lineScan_ok attrs hgood line none none none
  rcases hm with hm | hm
  · have hnone : n' = none := hn.mpr ⟨rfl, hm ▸ habs⟩
    subst hm
    simp [ParserInner.load_lines, hls, hnone, bind, Except.bind]
  · have hnum : ("number" : String) ∈ attrs.map Prod.fst := by
      rcases hoth ("number") (by simp) with he | he
      · rw [hm] at he
        exact absurd he (by decide)
      · exact he
    have hnn : n' ≠ none := fun hx => (hn.mp hx).2 hnum
    obtain ⟨x, hx⟩ := Option.ne_none_iff_exists'.mp hnn
    have hhv : h' = none := hh.mpr ⟨rfl, hm ▸ habs⟩
    subst hm
    simp [ParserInner.load_lines, hls, hx, hhv, bind, Except.bind]

/-- A pending run extends: parsing a concatenation continues from the state
reached by the pending prefix. -/
theorem runPending_parse (es₁ : List FilteredEvent) :
    ∀ (p p' : Parser), p.runPending es₁ = some p' →
      ∀ rest, p.parse (es₁ ++ rest) = p'.parse rest := by
  induction es₁ with
  | nil =>
    intro p p' h rest
    rw [Parser.runPending] at h
    cases h
    rfl
  | cons e tail ih =>
    intro p p' h rest
    rw [Parser.runPending] at h
    cases hc : p.consumeEvent e with
    | mk p₁ r =>
      rw [hc] at h
      cases r with
      | ready v => simp at h
      | pending =>
        simp at h
        rw [List.cons_append, Parser.parse, hc]
        exact ih p₁ p' h rest

theorem bindCondition_number (c c' : Condition) (attrs : List (String × String))
    (h : bindCondition c attrs = .ok c') : c'.number = c.number := by
  cases hs : set_required_attributes condition_descs attrs with
  | error e => simp [bindCondition, hs, bind, Except.bind] at h
  | ok vs =>
    simp [bindCondition, hs, bind, Except.bind] at h
    rw [← h]

theorem bindPackage_classes (p p' : Package) (attrs : List (String × String))
    (h : bindPackage p attrs = .ok p') : p'.classes = p.classes := by
  cases hs : set_required_attributes package_descs attrs with
  | error e => simp [bindPackage, hs, bind, Except.bind] at h
  | ok vs =>
    simp [bindPackage, hs, bind, Except.bind] at h
    rw [← h]

theorem bindClass_parts (c c' : Class) (attrs : List (String × String))
    (h : bindClass c attrs = .ok c') :
    c'.lines = c.lines ∧ c'.methods = c.methods := by
  cases hs : set_required_attributes class_descs attrs with
  | error e => simp [bindClass, hs, bind, Except.bind] at h
  | ok vs =>
    simp [bindClass, hs, bind, Except.bind] at h
    rw [← h]
    exact ⟨rfl, rfl⟩

theorem bindMethod_lines (m m' : Method) (attrs : List (String × String))
    (h : bindMethod m attrs = .ok m') : m'.lines = m.lines := by
  cases hs : set_required_attributes method_descs attrs with
  | error e => simp [bindMethod, hs, bind, Except.bind] at h
  | ok vs =>
    simp [bindMethod, hs, bind, Except.bind] at h
    rw [← h]

theorem bindCoverage_packages (c c' : Coverage) (attrs : List (String × String))
    (h : bindCoverage c attrs = .ok c') : c'.packages = c.packages := by
  cases hs : set_required_attributes coverage_descs attrs with
  | error e => simp [bindCoverage, hs, bind, Except.bind] at h
  | ok vs =>
    simp [bindCoverage, hs, bind, Except.bind] at h
    rw [← h]

theorem lineScan_conditions (attrs : List (String × String)) :
    ∀ (line : Line) (n h : Option Nat) (cc : Option String)
      (r : Line × Option Nat × Option Nat × Option String),
      ParserInner.lineScan line n h cc attrs = .ok r →
      r.1.conditions = line.conditions := by
  induction attrs with
  | nil =>
    intro line n h cc r hr
    rw [ParserInner.lineScan] at hr
    cases hr
    rfl
  | cons a rest ih =>
    obtain ⟨k, v⟩ := a
    intro line n h cc r hr
    rw [ParserInner.lineScan] at hr
    by_cases h1 : k = "number"
    · cases hp : parseNat v with
      | none => simp [h1, hp] at hr
      | some x =>
        simp [h1, hp] at hr
        exact ih line (some x) h cc r hr
    · by_cases h2 : k = "hits"
      · cases hp : parseNat v with
        | none => simp [h1, h2, hp] at hr
        | some x =>
          simp [h1, h2, hp] at hr
          exact ih line n (some x) cc r hr
      · by_cases h3 : k = "branch"
        · cases hp : parseBool v with
          | none => simp [h1, h2, h3, hp] at hr
          | some b =>
            simp [h1, h2, h3, hp] at hr
            simpa using ih { line with branch := b } n h cc r hr
        · by_cases h4 : k = "condition-coverage"
          · simp [h1, h2, h3, h4] at hr
            exact ih line n h (some v) r hr
          · simp [h1, h2, h3, h4] at hr
            exact ih line n h cc r hr

theorem load_lines_conditions (line line' : Line) (nm : String)
    (attrs : List (String × String)) (b : BasicEvent)
    (h : ParserInner.load_lines line nm attrs b = .ok line') :
    line'.conditions = line.conditions := by
  rw [ParserInner.load_lines] at h
  by_cases hn : nm ≠ "line"
  · simp [hn] at h
  · simp only [hn, if_false] at h
    cases hs : ParserInner.lineScan line none none none attrs with
    | error e => simp [hs, bind, Except.bind] at h
    | ok r =>
      obtain ⟨l2, n2, h2, cc2⟩ := r
      have hc := lineScan_conditions attrs line none none none (l2, n2, h2, cc2) hs
      cases n2 with
      | none => simp [hs, bind, Except.bind] at h
      | some x =>
        cases h2 with
        | none => simp [hs, bind, Except.bind] at h
        | some y =>
          simp [hs, bind, Except.bind] at h
          rw [← h]
          exact hc

theorem in_line_conditions_condZero (cs cs' : List Condition)
    (e : FilteredEvent) (a b : State) (s : State)
    (h : ParserInner.in_line_conditions cs e a b = .ok (cs', s))
    (hz : ∀ c ∈ cs, c.number = 0) : ∀ c ∈ cs', c.number = 0 := by
  cases e with
  | attributesOnly n attrs =>
    rw [ParserInner.in_line_conditions] at h
    by_cases hn : n = "condition"
    · cases hb : bindCondition Condition.default attrs with
      | error e' => simp [hn, hb, bind, Except.bind] at h
      | ok cond =>
        have hnum : cond.number = 0 :=
          bindCondition_number Condition.default cond attrs hb
        simp [hn, hb, bind, Except.bind] at h
        obtain ⟨h1, -⟩ := h
        rw [← h1]
        intro c hc
        rcases List.mem_append.mp hc with hc | hc
        · exact hz c hc
        · rw [List.mem_singleton.mp hc]
          exact hnum
    · simp [hn] at h
  | end_ n =>
    rw [ParserInner.in_line_conditions] at h
    by_cases hn : n = "conditions"
    · simp [hn] at h
      obtain ⟨h1, -⟩ := h
      rw [← h1]
      exact hz
    · simp [hn] at h
  | start n attrs =>
    simp [ParserInner.in_line_conditions] at h
  | text t =>
    simp [ParserInner.in_line_conditions] at h

theorem lines_condZero (line : Line) (lns : List Line) (e : FilteredEvent)
    (a b c : State) (line' : Line) (lns' : List Line) (s : State)
    (h : ParserInner.lines line lns e a b c = .ok (line', lns', s))
    (hl : line.condZero) (hls : ∀ x ∈ lns, x.condZero) :
    line'.condZero ∧ ∀ x ∈ lns', x.condZero := by
  cases e with
  | start n attrs =>
    rw [ParserInner.lines] at h
    cases hld : ParserInner.load_lines line n attrs
        (FilteredEvent.basic (.start n attrs)) with
    | error e' => simp [hld, bind, Except.bind] at h
    | ok l2 =>
      have hc := load_lines_conditions line l2 n attrs _ hld
      simp [hld, bind, Except.bind] at h
      obtain ⟨h1, h2, -⟩ := h
      rw [← h1, ← h2]
      refine ⟨?_, hls⟩
      intro cnd hcnd
      rw [hc] at hcnd
      exact hl cnd hcnd
  | attributesOnly n attrs =>
    rw [ParserInner.lines] at h
    cases hld : ParserInner.load_lines line n attrs
        (FilteredEvent.basic (.attributesOnly n attrs)) with
    | error e' => simp [hld, bind, Except.bind] at h
    | ok l2 =>
      have hc := load_lines_conditions line l2 n attrs _ hld
      simp [hld, bind, Except.bind] at h
      obtain ⟨h1, h2, -⟩ := h
      rw [← h1, ← h2]
      refine ⟨by intro cnd hcnd; simp [Line.default] at hcnd, ?_⟩
      intro x hx
      rcases List.mem_append.mp hx with hx | hx
      · exact hls x hx
      · rw [List.mem_singleton.mp hx]
        intro cnd hcnd
        rw [hc] at hcnd
        exact hl cnd hcnd
  | end_ n =>
    rw [ParserInner.lines] at h
    by_cases hn : n = "lines"
    · simp [hn] at h
      obtain ⟨h1, h2, -⟩ := h
      rw [← h1, ← h2]
      refine ⟨by intro cnd hcnd; simp [Line.default] at hcnd, ?_⟩
      intro x hx
      rcases List.mem_append.mp hx with hx | hx
      · exact hls x hx
      · rw [List.mem_singleton.mp hx]
        exact hl
    · simp [hn] at h
  | text t =>
    simp [ParserInner.lines] at h

theorem in_source_packages (cov : Coverage) (e : FilteredEvent)
    (c' : Coverage) (s : State)
    (h : ParserInner.in_source cov e = .ok (c', s)) :
    c'.packages = cov.packages := by
  cases e with
  | text t =>
    rw [ParserInner.in_source] at h
    cases h
    rfl
  | end_ n =>
    rw [ParserInner.in_source] at h
    by_cases hn : n = "source"
    · simp [hn] at h
      rw [← h.1]
    · simp [hn] at h
  | start n attrs => simp [ParserInner.in_source] at h
  | attributesOnly n attrs => simp [ParserInner.in_source] at h

theorem in_packages_classes (pkg : Package) (e : FilteredEvent)
    (p' : Package) (s : State)
    (h : ParserInner.in_packages pkg e = .ok (p', s)) :
    p'.classes = pkg.classes := by
  cases e with
  | start n attrs =>
    rw [ParserInner.in_packages] at h
    by_cases hn : n = "package"
    · cases hb : bindPackage pkg attrs with
      | error e' => simp [hn, hb, bind, Except.bind] at h
      | ok p2 =>
        simp [hn, hb, bind, Except.bind] at h
        rw [← h.1]
        exact bindPackage_classes pkg p2 attrs hb
    · simp [hn] at h
  | end_ n =>
    rw [ParserInner.in_packages] at h
    by_cases hn : n = "packages"
    · simp [hn] at h
      rw [← h.1]
    · simp [hn] at h
  | text t => simp [ParserInner.in_packages] at h
  | attributesOnly n attrs => simp [ParserInner.in_packages] at h

theorem in_package_condZero (cov : Coverage) (pkg : Package)
    (e : FilteredEvent) (c' : Coverage) (p' : Package) (s : State)
    (h : ParserInner.in_package cov pkg e = .ok (c', p', s))
    (hc : cov.condZero) (hp : pkg.condZero) : c'.condZero ∧ p'.condZero := by
  cases e with
  | start n attrs =>
    rw [ParserInner.in_package] at h
    by_cases hn : n = "classes"
    · simp [hn] at h
      obtain ⟨h1, h2, -⟩ := h
      rw [← h1, ← h2]
      exact ⟨hc, hp⟩
    · simp [hn] at h
  | end_ n =>
    rw [ParserInner.in_package] at h
    by_cases hn : n = "package"
    · simp [hn] at h
      obtain ⟨h1, h2, -⟩ := h
      rw [← h1, ← h2]
      constructor
      · intro q hq
        rcases List.mem_append.mp hq with hq | hq
        · exact hc q hq
        · rw [List.mem_singleton.mp hq]
          exact hp
      · intro cl hcl
        simp [Package.default] at hcl
    · simp [hn] at h
  | attributesOnly n attrs =>
    rw [ParserInner.in_package] at h
    by_cases hn : n = "classes"
    · simp [hn] at h
      obtain ⟨h1, h2, -⟩ := h
      rw [← h1, ← h2]
      exact ⟨hc, hp⟩
    · simp [hn] at h
  | text t => simp [ParserInner.in_package] at h

theorem in_classes_condZero (pkg : Package) (cls : Class)
    (e : FilteredEvent) (p' : Package) (cl' : Class) (s : State)
    (h : ParserInner.in_classes pkg cls e = .ok (p', cl', s))
    (hp : pkg.condZero) (hcl : cls.condZero) : p'.condZero ∧ cl'.condZero := by
  cases e with
  | start n attrs =>
    rw [ParserInner.in_classes] at h
    by_cases hn : n = "class"
    · cases hb : bindClass cls attrs with
      | error e' => simp [hn, hb, bind, Except.bind] at h
      | ok c2 =>
        obtain ⟨hbl, hbm⟩ := bindClass_parts cls c2 attrs hb
        simp [hn, hb, bind, Except.bind] at h
        obtain ⟨h1, h2, -⟩ := h
        rw [← h1, ← h2]
        refine ⟨hp, ?_, ?_⟩
        · rw [hbl]
          exact hcl.1
        · rw [hbm]
          exact hcl.2
    · simp [hn] at h
  | end_ n =>
    rw [ParserInner.in_classes] at h
    by_cases hn : n = "classes"
    · simp [hn] at h
      obtain ⟨h1, h2, -⟩ := h
      rw [← h1, ← h2]
      constructor
      · intro q hq
        rcases List.mem_append.mp hq with hq | hq
        · exact hp q hq
        · rw [List.mem_singleton.mp hq]
          exact hcl
      · exact ⟨by intro l hl; simp [Class.default] at hl,
               by intro mm hmm; simp [Class.default] at hmm⟩
    · simp [hn] at h
  | text t => simp [ParserInner.in_classes] at h
  | attributesOnly n attrs => simp [ParserInner.in_classes] at h

theorem in_methods_condZero (cls : Class) (mth : Method)
    (e : FilteredEvent) (cl' : Class) (m' : Method) (s : State)
    (h : ParserInner.in_methods cls mth e = .ok (cl', m', s))
    (hcl : cls.condZero) (hm : mth.condZero) : cl'.condZero ∧ m'.condZero := by
  cases e with
  | start n attrs =>
    rw [ParserInner.in_methods] at h
    by_cases hn : n = "method"
    · cases hb : bindMethod mth attrs with
      | error e' => simp [hn, hb, bind, Except.bind] at h
      | ok m2 =>
        have hbl := bindMethod_lines mth m2 attrs hb
        simp [hn, hb, bind, Except.bind] at h
        obtain ⟨h1, h2, -⟩ := h
        rw [← h1, ← h2]
        refine ⟨hcl, ?_⟩
        rw [Method.condZero, hbl]
        exact hm
    · simp [hn] at h
  | end_ n =>
    rw [ParserInner.in_methods] at h
    by_cases hn : n = "methods"
    · simp [hn] at h
      obtain ⟨h1, h2, -⟩ := h
      rw [← h1, ← h2]
      constructor
      · refine ⟨hcl.1, ?_⟩
        intro q hq
        rcases List.mem_append.mp hq with hq | hq
        · exact hcl.2 q hq
        · rw [List.mem_singleton.mp hq]
          exact hm
      · intro l hl
        simp [Method.default] at hl
    · simp [hn] at h
  | text t => simp [ParserInner.in_methods] at h
  | attributesOnly n attrs => simp [ParserInner.in_methods] at h

theorem inner_step_condZero (i i' : ParserInner) (e : FilteredEvent)
    (h : i.consumeEvent e = .ok i') (hz : i.condZero) : i'.condZero := by
  obtain ⟨hcov, hpkg, hcls, hmet, hlin⟩ := hz
  rw [ParserInner.consumeEvent] at h
  cases hstate : i.state with
  | ParsingCoverage =>
    rw [hstate] at h
    cases hc : ParserInner.in_coverage e with
    | error e' => simp [hc, bind, Except.bind] at h
    | ok s =>
      simp [hc, bind, Except.bind] at h
      rw [← h]
      exact ⟨hcov, hpkg, hcls, hmet, hlin⟩
  | ParsingSources =>
    rw [hstate] at h
    cases hc : ParserInner.in_sources e with
    | error e' => simp [hc, bind, Except.bind] at h
    | ok s =>
      simp [hc, bind, Except.bind] at h
      rw [← h]
      exact ⟨hcov, hpkg, hcls, hmet, hlin⟩
  | ParsingSource =>
    rw [hstate] at h
    cases hc : ParserInner.in_source i.coverage e with
    | error e' => simp [hc, bind, Except.bind] at h
    | ok pr =>
      obtain ⟨c', s⟩ := pr
      have hpp := in_source_packages i.coverage e c' s hc
      simp [hc, bind, Except.bind] at h
      rw [← h]
      refine ⟨?_, hpkg, hcls, hmet, hlin⟩
      intro q hq
      rw [hpp] at hq
      exact hcov q hq
  | ParsingPackages =>
    rw [hstate] at h
    cases hc : ParserInner.in_packages i.package e with
    | error e' => simp [hc, bind, Except.bind] at h
    | ok pr =>
      obtain ⟨p', s⟩ := pr
      have hpp := in_packages_classes i.package e p' s hc
      simp [hc, bind, Except.bind] at h
      rw [← h]
      refine ⟨hcov, ?_, hcls, hmet, hlin⟩
      intro q hq
      rw [hpp] at hq
      exact hpkg q hq
  | ParsingPackage =>
    rw [hstate] at h
    cases hc : ParserInner.in_package i.coverage i.package e with
    | error e' => simp [hc, bind, Except.bind] at h
    | ok pr =>
      obtain ⟨c', p', s⟩ := pr
      obtain ⟨hc1, hc2⟩ := in_package_condZero i.coverage i.package e c' p' s hc hcov hpkg
      simp [hc, bind, Except.bind] at h
      rw [← h]
      exact ⟨hc1, hc2, hcls, hmet, hlin⟩
  | ParsingClasses =>
    rw [hstate] at h
    cases hc : ParserInner.in_classes i.package i.class' e with
    | error e' => simp [hc, bind, Except.bind] at h
    | ok pr =>
      obtain ⟨p', cl', s⟩ := pr
      obtain ⟨hc1, hc2⟩ := in_classes_condZero i.package i.class' e p' cl' s hc hpkg hcls
      simp [hc, bind, Except.bind] at h
      rw [← h]
      exact ⟨hcov, hc1, hc2, hmet, hlin⟩
  | ParsingClass =>
    rw [hstate] at h
    cases hc : ParserInner.in_class e with
    | error e' => simp [hc, bind, Except.bind] at h
    | ok s =>
      simp [hc, bind, Except.bind] at h
      rw [← h]
      exact ⟨hcov, hpkg, hcls, hmet, hlin⟩
  | ParsingMethods =>
    rw [hstate] at h
    cases hc : ParserInner.in_methods i.class' i.method e with
    | error e' => simp [hc, bind, Except.bind] at h
    | ok pr =>
      obtain ⟨cl', m', s⟩ := pr
      obtain ⟨hc1, hc2⟩ := in_methods_condZero i.class' i.method e cl' m' s hc hcls hmet
      simp [hc, bind, Except.bind] at h
      rw [← h]
      exact ⟨hcov, hpkg, hc1, hc2, hlin⟩
  | ParsingMethod =>
    rw [hstate] at h
    cases hc : ParserInner.in_method e with
    | error e' => simp [hc, bind, Except.bind] at h
    | ok s =>
      simp [hc, bind, Except.bind] at h
      rw [← h]
      exact ⟨hcov, hpkg, hcls, hmet, hlin⟩
  | ParsingMethodLines =>
    rw [hstate] at h
    cases hls : ParserInner.lines i.line i.method.lines e
        State.ParsingMethodLines State.ParsingMethodLine State.ParsingMethod with
    | error e' =>
      simp [ParserInner.in_method_lines, hls, bind, Except.bind] at h
    | ok tr =>
      obtain ⟨l2, lns2, s2⟩ := tr
      obtain ⟨hz1, hz2⟩ := lines_condZero i.line i.method.lines e
        State.ParsingMethodLines State.ParsingMethodLine State.ParsingMethod
        l2 lns2 s2 hls hlin hmet
      simp [ParserInner.in_method_lines, hls, bind, Except.bind] at h
      rw [← h]
      exact ⟨hcov, hpkg, hcls, hz2, hz1⟩
  | ParsingMethodLine =>
    rw [hstate] at h
    cases hc : ParserInner.in_method_line e with
    | error e' => simp [hc, bind, Except.bind] at h
    | ok s =>
      simp [hc, bind, Except.bind] at h
      rw [← h]
      exact ⟨hcov, hpkg, hcls, hmet, hlin⟩
  | ParsingMethodLineConditions =>
    rw [hstate] at h
    cases hlc : ParserInner.in_line_conditions i.line.conditions e
        State.ParsingMethodLineConditions State.ParsingMethodLine with
    | error e' =>
      simp [ParserInner.in_method_line_conditions, hlc, bind, Except.bind] at h
    | ok pr2 =>
      obtain ⟨cs2, s2⟩ := pr2
      have hz1 := in_line_conditions_condZero i.line.conditions cs2 e
        State.ParsingMethodLineConditions State.ParsingMethodLine s2 hlc hlin
      simp [ParserInner.in_method_line_conditions, hlc, bind, Except.bind] at h
      rw [← h]
      exact ⟨hcov, hpkg, hcls, hmet, hz1⟩
  | ParsingClassLines =>
    rw [hstate] at h
    cases hls : ParserInner.lines i.line i.class'.lines e
        State.ParsingClassLines State.ParsingClassLine State.ParsingClass with
    | error e' =>
      simp [ParserInner.in_class_lines, hls, bind, Except.bind] at h
    | ok tr =>
      obtain ⟨l2, lns2, s2⟩ := tr
      obtain ⟨hz1, hz2⟩ := lines_condZero i.line i.class'.lines e
        State.ParsingClassLines State.ParsingClassLine State.ParsingClass
        l2 lns2 s2 hls hlin hcls.1
      simp [ParserInner.in_class_lines, hls, bind, Except.bind] at h
      rw [← h]
      exact ⟨hcov, hpkg, ⟨hz2, hcls.2⟩, hmet, hz1⟩
  | ParsingClassLine =>
    rw [hstate] at h
    cases hc : ParserInner.in_class_line e with
    | error e' => simp [hc, bind, Except.bind] at h
    | ok s =>
      simp [hc, bind, Except.bind] at h
      rw [← h]
      exact ⟨hcov, hpkg, hcls, hmet, hlin⟩
  | ParsingClassLineConditions =>
    rw [hstate] at h
    cases hlc : ParserInner.in_line_conditions i.line.conditions e
        State.ParsingClassLineConditions State.ParsingClassLine with
    | error e' =>
      simp [ParserInner.in_class_line_conditions, hlc, bind, Except.bind] at h
    | ok pr2 =>
      obtain ⟨cs2, s2⟩ := pr2
      have hz1 := in_line_conditions_condZero i.line.conditions cs2 e
        State.ParsingClassLineConditions State.ParsingClassLine s2 hlc hlin
      simp [ParserInner.in_class_line_conditions, hlc, bind, Except.bind] at h
      rw [← h]
      exact ⟨hcov, hpkg, hcls, hmet, hz1⟩
  | End =>
    rw [hstate] at h
    simp at h

theorem parse_coverage_condZero (e : FilteredEvent) (i : ParserInner)
    (h : Parser.parse_coverage e = .ok i) : i.condZero := by
  cases e with
  | start n attrs =>
    rw [Parser.parse_coverage] at h
    by_cases hn : n = "coverage"
    · cases hb : bindCoverage Coverage.default attrs with
      | error e' => simp [hn, hb, bind, Except.bind] at h
      | ok cov =>
        have hp := bindCoverage_packages Coverage.default cov attrs hb
        simp [hn, hb, bind, Except.bind] at h
        rw [← h]
        refine ⟨?_, ?_, ⟨?_, ?_⟩, ?_, ?_⟩
        · intro q hq
          rw [hp] at hq
          simp [Coverage.default] at hq
        · intro q hq
          simp [Package.default] at hq
        · intro q hq
          simp [Class.default] at hq
        · intro q hq
          simp [Class.default] at hq
        · intro q hq
          simp [Method.default] at hq
        · intro q hq
          simp [Line.default] at hq
    · simp [hn] at h
  | text t => simp [Parser.parse_coverage] at h
  | end_ n => simp [Parser.parse_coverage] at h
  | attributesOnly n attrs => simp [Parser.parse_coverage] at h

theorem consume_condZero (p : Parser) (e : FilteredEvent) (p' : Parser)
    (r : Poll (Except ParserError Coverage))
    (h : p.consumeEvent e = (p', r)) (hz : p.condZero) :
    p'.condZero ∧ ∀ c, r = Poll.ready (Except.ok c) → c.condZero := by
  cases hpi : p.inner with
  | none =>
    simp only [Parser.consumeEvent, hpi] at h
    cases hpc : Parser.parse_coverage e with
    | error e' =>
      simp only [hpc] at h
      cases h
      exact ⟨by intro i hi; simp at hi, by intro c hc; simp at hc⟩
    | ok i =>
      simp only [hpc] at h
      cases h
      refine ⟨?_, by intro c hc; simp at hc⟩
      intro j hj
      cases hj
      exact parse_coverage_condZero e i hpc
  | some i =>
    have hiz : i.condZero := hz i hpi
    simp only [Parser.consumeEvent, hpi] at h
    cases hic : i.consumeEvent e with
    | error e' =>
      simp only [hic] at h
      cases h
      exact ⟨by intro j hj; simp at hj, by intro c hc; simp at hc⟩
    | ok i' =>
      have hiz' := inner_step_condZero i i' e hic hiz
      simp only [hic] at h
      by_cases hs : i'.state = State.End
      · rw [if_pos hs] at h
        cases h
        refine ⟨by intro j hj; simp at hj, ?_⟩
        intro c hc
        cases hc
        exact hiz'.1
      · rw [if_neg hs] at h
        cases h
        refine ⟨?_, by intro c hc; simp at hc⟩
        intro j hj
        cases hj
        exact hiz'

theorem parse_condZero (es : List FilteredEvent) :
    ∀ (p p' : Parser) (c : Coverage), p.parse es = (p', Except.ok c) →
      p.condZero → c.condZero := by
  induction es with
  | nil =>
    intro p p' c h _
    rw [Parser.parse] at h
    cases h
  | cons e rest ih =>
    intro p p' c h hz
    rw [Parser.parse] at h
    cases hc : p.consumeEvent e with
    | mk p₁ r =>
      obtain ⟨hz₁, hready⟩ := consume_condZero p e p₁ r hc hz
      rw [hc] at h
      cases r with
      | ready v =>
        simp at h
        exact hready c (by rw [h.2])
      | pending =>
        simp at h
        exact ih p₁ p' c h hz₁

/- ------------------------------------------------------------------
Claim theorems.
------------------------------------------------------------------ -/

/-- C1: evaluation of the parser at a document whose lines container holds
exactly one line element.  The accepted parse yields TWO Lines for it — the
real one plus a phantom default Line pushed unconditionally when the
container's end tag arrives — refuting "a lines container holding N line
elements yields exactly N Lines". -/
theorem C1_lines_per_element :
    ((Parser.new.parse c1events).2).map docLines =
      Except.ok [[[{ conditions := [], number := 1, hits := 3, branch := false,
                     condition_coverage := none }, Line.default]]] := by
  decide

/-- C2: the `UnexpectedEof` returned by the drive-to-completion entry does
NOT discard the in-progress accumulation: after a truncated stream the
facade still holds partial state, refuting the claim for that error. -/
theorem C2_eof_keeps_state :
    (Parser.new.parse c2events).2 = Except.error ParserError.unexpectedEof ∧
    (Parser.new.parse c2events).1 ≠ Parser.new := by
  decide

/-- C2 (amended): every error reported through `consume_event` does discard
all accumulation and return the facade to the unstarted state; only the
convenience entry's `UnexpectedEof` leaves state behind. -/
theorem C2_consume_error_unstarted (p : Parser) (e : FilteredEvent)
    (err : ParserError)
    (h : (p.consumeEvent e).2 = Poll.ready (Except.error err)) :
    (p.consumeEvent e).1 = Parser.new := by
  cases p with
  | mk inner =>
    cases inner with
    | none =>
      cases hpc : Parser.parse_coverage e with
      | error e' => simp [Parser.consumeEvent, hpc, Parser.new]
      | ok i => simp [Parser.consumeEvent, hpc] at h
    | some i =>
      cases hic : i.consumeEvent e with
      | error e' => simp [Parser.consumeEvent, hic, Parser.new]
      | ok i' =>
        by_cases hs : i'.state = State.End
        · simp [Parser.consumeEvent, hic, hs] at h
        · simp [Parser.consumeEvent, hic, hs] at h

/-- C2 (amended) witness: a malformed first event leaves the facade
unstarted. -/
theorem C2_consume_error_unstarted_witness :
    (Parser.new.consumeEvent (FilteredEvent.text ("x"))).2 =
      Poll.ready (Except.error (ParserError.expectedStart BasicEvent.text
        ["coverage"])) ∧
    (Parser.new.consumeEvent (FilteredEvent.text ("x"))).1 = Parser.new :=
  ⟨by decide,
   C2_consume_error_unstarted Parser.new (FilteredEvent.text ("x"))
     (ParserError.expectedStart BasicEvent.text ["coverage"]) (by decide)⟩

/-- C3: a self-closing package tag in the Packages state is rejected, not
accepted: parsing the self-closed variant fails with `ExpectedStartOrEnd`
while the expanded variant succeeds — refuting "both succeed and yield
identical Package values". -/
theorem C3_selfclosed_package_rejected :
    (Parser.new.parse (c3selfClosed ("a") ("0") ("0") ("0"))).2 =
      Except.error (ParserError.expectedStartOrEnd (BasicEvent.start ("package"))
        ["package"] ["packages"]) ∧
    ((Parser.new.parse (c3expanded ("a") ("0") ("0") ("0"))).2).map
        (fun c => c.packages) =
      Except.ok [{ classes := [], name := "a", line_rate := 0, branch_rate := 0,
                   complexity := 0 }] := by
  decide

/-- C3 (amended): a self-closing package tag in the Packages state is
rejected with `ExpectedStartOrEnd`; the expanded form — package start tag,
empty self-closed classes child, package end tag — succeeds and yields the
Package bound from the attributes, with an empty class sequence. -/
theorem C3_package_forms (sn slr sbr scx : String) (lr br cx : Rat)
    (hlr : parseF64 slr = some lr) (hbr : parseF64 sbr = some br)
    (hcx : parseF64 scx = some cx) :
    ((Parser.new.parse (c3expanded sn slr sbr scx)).2).map
        (fun c => c.packages) =
      Except.ok [{ classes := [], name := sn, line_rate := lr,
                   branch_rate := br, complexity := cx }] ∧
    (Parser.new.parse (c3selfClosed sn slr sbr scx)).2 =
      Except.error (ParserError.expectedStartOrEnd
        (BasicEvent.start ("package")) ["package"] ["packages"]) := by
  have hcov : bindCoverage Coverage.default a9 = Except.ok cov0 := by decide
  have hb := bindPackage_eval Package.default sn slr sbr scx lr br cx hlr hbr hcx
  constructor
  · simp [c3expanded, Parser.parse, Parser.consumeEvent, Parser.parse_coverage,
          ParserInner.consumeEvent, ParserInner.in_coverage,
          ParserInner.in_packages, ParserInner.in_package, hcov, cov0,
          bind, Except.bind, Parser.new, FilteredEvent.basic,
          ParserError.start_end, ParserError.start, ParserError.end_]
    rw [hb]
    simp [Package.default, Except.map]
  · simp [c3selfClosed, Parser.parse, Parser.consumeEvent, Parser.parse_coverage,
          ParserInner.consumeEvent, ParserInner.in_coverage,
          ParserInner.in_packages, hcov, cov0,
          bind, Except.bind, Parser.new, FilteredEvent.basic,
          ParserError.start_end, ParserError.start, ParserError.end_]

/-- C3 (amended) witness at concrete attribute values. -/
theorem C3_package_forms_witness :
    ((Parser.new.parse (c3expanded ("b") ("1") ("0") ("0"))).2).map
        (fun c => c.packages) =
      Except.ok [{ classes := [], name := "b", line_rate := 1,
                   branch_rate := 0, complexity := 0 }] ∧
    (Parser.new.parse (c3selfClosed ("b") ("1") ("0") ("0"))).2 =
      Except.error (ParserError.expectedStartOrEnd
        (BasicEvent.start ("package")) ["package"] ["packages"]) :=
  C3_package_forms ("b") ("1") ("0") ("0") 1 0 0 (by decide) (by decide)
    (by decide)

/-- C4: evaluation of the parser at a document whose second line element
carries no branch attribute.  Its Line nevertheless has `branch = true`,
inherited from the preceding open line element through the shared in-flight
slot — refuting "the branch flag defaults to false and is never
inherited". -/
theorem C4_branch_inheritance :
    ((Parser.new.parse c4events).2).map docLines =
      Except.ok [[[{ conditions := [], number := 2, hits := 0, branch := true,
                     condition_coverage := none }, Line.default]]] := by
  decide

/-- C5: scan order DOES affect the outcome of attribute extraction: a
duplicated attribute name with two parsable values binds the last
occurrence, and two differently-named unparsable values make the named
error depend on order — both pairs below are permutations with different
outcomes. -/
theorem C5_scan_order_counterexample :
    List.Perm c5dupA c5dupB ∧
    set_required_attributes package_descs c5dupA ≠
      set_required_attributes package_descs c5dupB ∧
    List.Perm c5invA c5invB ∧
    set_required_attributes package_descs c5invA ≠
      set_required_attributes package_descs c5invB := by
  decide

/-- C5 (amended): for attribute lists without duplicate names in which every
recognized present value parses, the outcome of required-attribute
extraction — the bound values on success, or the `MissingRequiredAttribute`
error — is the same for every permutation of the list; this holds for the
descriptor list of every element kind. -/
theorem C5_scan_order_invariant (descs : List AttrDesc)
    (l₁ l₂ : List (String × String)) (hperm : l₁.Perm l₂)
    (hnodup : (l₁.map Prod.fst).Nodup) (hgood : GoodAttrs descs l₁) :
    set_required_attributes descs l₁ = set_required_attributes descs l₂ := by
  have hgood₂ : GoodAttrs descs l₂ := fun nv hnv =>
    hgood nv (hperm.mem_iff.mpr hnv)
  unfold set_required_attributes
  rw [scanAttrs_ok descs l₁ hgood, scanAttrs_ok descs l₂ hgood₂,
      foldl_applyAttr_perm descs hperm hnodup]

/-- C5 (amended) witness: a concrete duplicate-free permutation pair with
identical extraction outcome. -/
theorem C5_scan_order_invariant_witness :
    set_required_attributes package_descs ap =
      set_required_attributes package_descs
        [("complexity", "0"), ("branch-rate", "0"), ("line-rate", "0"),
         ("name", "p")] :=
  C5_scan_order_invariant package_descs ap
    [("complexity", "0"), ("branch-rate", "0"), ("line-rate", "0"),
     ("name", "p")] (by decide) (by decide) (by decide)

/-- C6: in any document context, a binding tag for any element kind
(coverage, package, class, method, line, condition) whose attribute list is
missing exactly one required attribute — all present attributes
well-formed — makes parsing fail with `MissingRequiredAttribute` carrying
exactly that attribute's name. -/
theorem C6_missing_attribute (k : ElemKind) (es₁ es₂ : List FilteredEvent)
    (p : Parser) (e : FilteredEvent) (attrs : List (String × String))
    (m : String)
    (hrun : Parser.new.runPending es₁ = some p)
    (hstate : k.stateOk p)
    (hev : e ∈ k.events attrs)
    (hgood : GoodAttrs k.recognized attrs)
    (hm : m ∈ k.required)
    (habs : m ∉ attrs.map Prod.fst)
    (hoth : ∀ r ∈ k.required, r = m ∨ r ∈ attrs.map Prod.fst) :
    (Parser.new.parse (es₁ ++ e :: es₂)).2 =
      Except.error (ParserError.missingRequiredAttribute m) := by
  rw [runPending_parse es₁ Parser.new p hrun (e :: es₂)]
  suffices hstep : p.consumeEvent e =
      (Parser.new,
       Poll.ready (Except.error (ParserError.missingRequiredAttribute m))) by
    rw [parse_cons_ready p Parser.new e _ es₂ hstep]
  cases k with
  | coverage =>
    have he : e = FilteredEvent.start ("coverage") attrs := by
      simpa [ElemKind.events] using hev
    have hoth' : ∀ d ∈ coverage_descs,
        d.name = m ∨ d.name ∈ attrs.map Prod.fst :=
      fun d hd => hoth d.name (List.mem_map_of_mem _ hd)
    have hx := extract_missing coverage_descs attrs m hgood habs hm hoth'
    have hpi : p.inner = none := hstate
    subst he
    simp [Parser.consumeEvent, hpi, Parser.parse_coverage, bindCoverage, hx,
          bind, Except.bind, Parser.new]
  | package =>
    have he : e = FilteredEvent.start ("package") attrs := by
      simpa [ElemKind.events] using hev
    obtain ⟨i, hpi, hsi⟩ := hstate
    have hoth' : ∀ d ∈ package_descs,
        d.name = m ∨ d.name ∈ attrs.map Prod.fst :=
      fun d hd => hoth d.name (List.mem_map_of_mem _ hd)
    have hx := extract_missing package_descs attrs m hgood habs hm hoth'
    subst he
    simp [Parser.consumeEvent, hpi, ParserInner.consumeEvent, hsi,
          ParserInner.in_packages, bindPackage, hx, bind, Except.bind,
          Parser.new]
  | class' =>
    have he : e = FilteredEvent.start ("class") attrs := by
      simpa [ElemKind.events] using hev
    obtain ⟨i, hpi, hsi⟩ := hstate
    have hoth' : ∀ d ∈ class_descs,
        d.name = m ∨ d.name ∈ attrs.map Prod.fst :=
      fun d hd => hoth d.name (List.mem_map_of_mem _ hd)
    have hx := extract_missing class_descs attrs m hgood habs hm hoth'
    subst he
    simp [Parser.consumeEvent, hpi, ParserInner.consumeEvent, hsi,
          ParserInner.in_classes, bindClass, hx, bind, Except.bind, Parser.new]
  | method =>
    have he : e = FilteredEvent.start ("method") attrs := by
      simpa [ElemKind.events] using hev
    obtain ⟨i, hpi, hsi⟩ := hstate
    have hoth' : ∀ d ∈ method_descs,
        d.name = m ∨ d.name ∈ attrs.map Prod.fst :=
      fun d hd => hoth d.name (List.mem_map_of_mem _ hd)
    have hx := extract_missing method_descs attrs m hgood habs hm hoth'
    subst he
    simp [Parser.consumeEvent, hpi, ParserInner.consumeEvent, hsi,
          ParserInner.in_methods, bindMethod, hx, bind, Except.bind, Parser.new]
  | condition =>
    have he : e = FilteredEvent.attributesOnly ("condition") attrs := by
      simpa [ElemKind.events] using hev
    obtain ⟨i, hpi, hsi⟩ := hstate
    have hoth' : ∀ d ∈ condition_descs,
        d.name = m ∨ d.name ∈ attrs.map Prod.fst :=
      fun d hd => hoth d.name (List.mem_map_of_mem _ hd)
    have hx := extract_missing condition_descs attrs m hgood habs hm hoth'
    subst he
    rcases hsi with hsi | hsi <;>
      simp [Parser.consumeEvent, hpi, ParserInner.consumeEvent, hsi,
            ParserInner.in_method_line_conditions,
            ParserInner.in_class_line_conditions,
            ParserInner.in_line_conditions, bindCondition, hx, bind,
            Except.bind, Parser.new]
  | line =>
    obtain ⟨i, hpi, hsi⟩ := hstate
    have hg' : ∀ nv ∈ attrs,
        (nv.1 = "number" → (parseNat nv.2).isSome) ∧
        (nv.1 = "hits" → (parseNat nv.2).isSome) ∧
        (nv.1 = "branch" → (parseBool nv.2).isSome) := by
      intro nv hnv
      refine ⟨fun he => ?_, fun he => ?_, fun he => ?_⟩
      · have h1 := hgood nv hnv ⟨"number", Ty.usize⟩ (by decide) he
        cases hp : parseNat nv.2 with
        | none => simp [Ty.parse, hp] at h1
        | some x => simp [hp]
      · have h1 := hgood nv hnv ⟨"hits", Ty.usize⟩ (by decide) he
        cases hp : parseNat nv.2 with
        | none => simp [Ty.parse, hp] at h1
        | some x => simp [hp]
      · have h1 := hgood nv hnv ⟨"branch", Ty.bool⟩ (by decide) he
        cases hp : parseBool nv.2 with
        | none => simp [Ty.parse, hp] at h1
        | some x => simp [hp]
    have hm' : m = "number" ∨ m = "hits" := by
      simpa [ElemKind.required] using hm
    have hll := load_lines_missing i.line attrs (BasicEvent.start ("line")) m
      hg' hm' habs hoth
    have hev' : e = FilteredEvent.start ("line") attrs ∨
        e = FilteredEvent.attributesOnly ("line") attrs := by
      simpa [ElemKind.events] using hev
    rcases hev' with he | he <;> subst he <;> rcases hsi with hsi | hsi <;>
      simp [Parser.consumeEvent, hpi, ParserInner.consumeEvent, hsi,
            ParserInner.in_method_lines, ParserInner.in_class_lines,
            ParserInner.lines, FilteredEvent.basic, hll, bind, Except.bind,
            Parser.new]

/-- C6 witness: a class tag missing its branch-rate attribute. -/
theorem C6_missing_attribute_witness :
    (Parser.new.parse
        (c6lead ++ FilteredEvent.start ("class") c6attrs :: [])).2 =
      Except.error (ParserError.missingRequiredAttribute ("branch-rate")) :=
  C6_missing_attribute ElemKind.class' c6lead [] c6parser
    (FilteredEvent.start ("class") c6attrs) c6attrs ("branch-rate")
    (by decide) ⟨c6inner, by decide, by decide⟩ (by decide) (by decide)
    (by decide) (by decide) (by decide)


/-- C7: an event stream that ends before the root end tag is consumed can
yield an error other than `UnexpectedEof`: an invalid first event reports
`ExpectedStart`, refuting the universally-quantified claim. -/
theorem C7_error_not_eof :
    (Parser.new.parse [FilteredEvent.start ("bogus") []]).2 =
      Except.error (ParserError.expectedStart (BasicEvent.start ("bogus"))
        ["coverage"]) ∧
    (Parser.new.parse [FilteredEvent.start ("bogus") []]).2 ≠
      Except.error ParserError.unexpectedEof := by
  decide

/-- C7 (amended): on every event stream each of whose events leaves the
machine suspended (a strict prefix of a valid document), the
drive-to-completion entry returns `UnexpectedEof` and never a (partial)
document. -/
theorem C7_pending_eof (p p' : Parser) (es : List FilteredEvent)
    (h : p.runPending es = some p') :
    p.parse es = (p', Except.error ParserError.unexpectedEof) := by
  induction es generalizing p with
  | nil =>
    rw [Parser.runPending] at h
    cases h
    rfl
  | cons e rest ih =>
    rw [Parser.runPending] at h
    cases hc : p.consumeEvent e with
    | mk p₁ r =>
      rw [hc] at h
      cases r with
      | ready v => simp at h
      | pending =>
        simp at h
        rw [Parser.parse, hc]
        exact ih p₁ h

/-- C7 (amended) witness: a concrete pending prefix yields `UnexpectedEof`. -/
theorem C7_pending_eof_witness :
    Parser.new.runPending c7lead = some c7parser ∧
    Parser.new.parse c7lead =
      (c7parser, Except.error ParserError.unexpectedEof) :=
  ⟨by decide, C7_pending_eof Parser.new c7parser c7lead (by decide)⟩

/-- C8: a minimal well-formed document — root start tag with the nine valid
required attributes, self-closed packages tag, root end tag — parses into a
document with an empty package sequence whose root fields equal the parsed
attribute values. -/
theorem C8_minimal_document (slr sbr slc slv sbc sbv scx sv st : String)
    (lr br cx : Rat) (lc lv bc bv ts : Nat)
    (hlr : parseF64 slr = some lr) (hbr : parseF64 sbr = some br)
    (hlc : parseNat slc = some lc) (hlv : parseNat slv = some lv)
    (hbc : parseNat sbc = some bc) (hbv : parseNat sbv = some bv)
    (hcx : parseF64 scx = some cx) (hts : parseNat st = some ts) :
    Parser.new.parse (c8events slr sbr slc slv sbc sbv scx sv st) =
      (Parser.new,
       Except.ok { sources := [], packages := [], line_rate := lr,
                   branch_rate := br, lines_covered := lc, lines_valid := lv,
                   branches_covered := bc, branches_valid := bv,
                   complexity := cx, version := sv, timestamp := ts }) := by
  have hb := bindCoverage_eval Coverage.default slr sbr slc slv sbc sbv scx sv
    st lr br cx lc lv bc bv ts hlr hbr hlc hlv hbc hbv hcx hts
  simp [Coverage.default] at hb
  simp [c8events, Parser.parse, Parser.consumeEvent, Parser.parse_coverage, hb,
        ParserInner.consumeEvent, ParserInner.in_coverage, Parser.new,
        bind, Except.bind, Coverage.default]

/-- C8 witness at concrete attribute values. -/
theorem C8_minimal_document_witness :
    Parser.new.parse (c8events ("0") ("0") ("0") ("0") ("0") ("0") ("0")
        ("2") ("7")) =
      (Parser.new,
       Except.ok { sources := [], packages := [], line_rate := 0,
                   branch_rate := 0, lines_covered := 0, lines_valid := 0,
                   branches_covered := 0, branches_valid := 0, complexity := 0,
                   version := "2", timestamp := 7 }) :=
  C8_minimal_document ("0") ("0") ("0") ("0") ("0") ("0") ("0") ("2") ("7")
    0 0 0 0 0 0 0 7 (by decide) (by decide) (by decide) (by decide)
    (by decide) (by decide) (by decide) (by decide)

/-- C9: whenever event consumption completes a document, the facade is back
in the unstarted (empty) state, so any further events are parsed exactly as
by a fresh instance. -/
theorem C9_complete_resets (p : Parser) (e : FilteredEvent) (p' : Parser)
    (c : Coverage) (h : p.consumeEvent e = (p', Poll.ready (Except.ok c))) :
    p' = Parser.new ∧ ∀ es, p'.parse es = Parser.new.parse es := by
  suffices hp : p' = Parser.new by
    exact ⟨hp, fun es => by rw [hp]⟩
  cases p with
  | mk inner =>
    cases inner with
    | none =>
      cases hpc : Parser.parse_coverage e with
      | error e' => simp [Parser.consumeEvent, hpc] at h
      | ok i => simp [Parser.consumeEvent, hpc] at h
    | some i =>
      cases hic : i.consumeEvent e with
      | error e' => simp [Parser.consumeEvent, hic] at h
      | ok i' =>
        by_cases hs : i'.state = State.End
        · simp [Parser.consumeEvent, hic, hs] at h
          exact h.1.symm
        · simp [Parser.consumeEvent, hic, hs] at h

/-- C9 witness: completing a document from a concrete accumulator returns
the facade to the unstarted state. -/
theorem C9_complete_resets_witness :
    (Parser.mk (some c9inner)).consumeEvent (FilteredEvent.end_ ("coverage")) =
      (Parser.new, Poll.ready (Except.ok Coverage.default)) ∧
    Parser.new = Parser.new :=
  ⟨by decide,
   (C9_complete_resets (Parser.mk (some c9inner))
     (FilteredEvent.end_ ("coverage")) Parser.new Coverage.default
     (by decide)).1⟩

/-- C10: every Condition in any successfully parsed document has number
equal to 0 — the condition tag's number attribute is never read, so the
field keeps its default value. -/
theorem C10_condition_number_zero (es : List FilteredEvent) (p' : Parser) (c : Coverage)
    (h : Parser.new.parse es = (p', Except.ok c)) :
    ∀ pkg ∈ c.packages, ∀ cl ∈ pkg.classes,
      (∀ l ∈ cl.lines, ∀ cond ∈ l.conditions, cond.number = 0) ∧
      (∀ mth ∈ cl.methods, ∀ l ∈ mth.lines, ∀ cond ∈ l.conditions,
        cond.number = 0) := by
  have hz : c.condZero :=
    parse_condZero es Parser.new p' c h
      (by intro i hi; simp [Parser.new] at hi)
  intro pkg hpkg cl hcl
  exact hz pkg hpkg cl hcl

/-- C10 witness: the condition of a concrete parsed document. -/
theorem C10_condition_number_zero_witness : c10cond.number = 0 := by
  have h := C10_condition_number_zero c10events Parser.new c10doc (by decide)
  exact (h c10pkg (by decide) c10cl (by decide)).1 c10line (by decide)
    c10cond (by decide)

end Cobertura
